import Mathlib

/-!
Verification of the network traffic accounting and persistence engine
(`src/get_info/network/network_saver.rs`) of komari-monitor-rs.

Rust strings are modelled as `List Char`; machine integers as `Nat`/`Int`
with explicit wrapping where overflow matters.  Every definition in the
first part of the file is a shallow embedding of a function of the source;
the theorems at the end settle the frozen claims.
-/

namespace Komari

abbrev Str := List Char

/-- Unicode White_Space property, as used by Rust's `str::trim`. -/
def isWS (c : Char) : Bool :=
  c.toNat = 0x09 ∨ c.toNat = 0x0A ∨ c.toNat = 0x0B ∨ c.toNat = 0x0C ∨
  c.toNat = 0x0D ∨ c.toNat = 0x20 ∨ c.toNat = 0x85 ∨ c.toNat = 0xA0 ∨
  c.toNat = 0x1680 ∨ (0x2000 ≤ c.toNat ∧ c.toNat ≤ 0x200A) ∨
  c.toNat = 0x2028 ∨ c.toNat = 0x2029 ∨ c.toNat = 0x202F ∨
  c.toNat = 0x205F ∨ c.toNat = 0x3000

/-- Rust `str::trim`: drop White_Space from both ends. -/
def trimChars (l : Str) : Str :=
  ((l.dropWhile isWS).reverse.dropWhile isWS).reverse

/-- Rust `str::lines` (without the `\r`-stripping, which the subsequent
`trim` in the decoder subsumes): split on `'\n'`. -/
def splitOnChar (sep : Char) : Str → List Str
  | [] => [[]]
  | c :: cs =>
    match splitOnChar sep cs with
    | [] => if c = sep then [[], []] else [[c]]
    | h :: t => if c = sep then [] :: h :: t else (c :: h) :: t

/-- Rust `str::split_once`: split at the first occurrence of the separator. -/
def splitOnceChar (sep : Char) : Str → Option (Str × Str)
  | [] => none
  | c :: cs =>
    if c = sep then some ([], cs)
    else (splitOnceChar sep cs).map (fun p => (c :: p.1, p.2))

def digitChar (d : Nat) : Char := Char.ofNat (48 + d)

def isDigitC (c : Char) : Bool := 48 ≤ c.toNat ∧ c.toNat ≤ 57

def charToDigit (c : Char) : Nat := c.toNat - 48

/-- Decimal representation of a natural number (Rust `u64`/`u32` `Display`). -/
def natDigits (n : Nat) : Str :=
  ((Nat.digits 10 n).map digitChar).reverse ++ (if n = 0 then ['0'] else [])

/-- Digit-string parser core: none on empty or on any non-digit. -/
def parseDigits (cs : Str) : Option Nat :=
  if cs = [] then none
  else cs.foldl (fun o c => o.bind
    (fun a => if isDigitC c then some (a * 10 + charToDigit c) else none)) (some 0)

/-- Rust unsigned integer `FromStr`: optional leading `'+'`, then digits. -/
def rustParseNat (cs : Str) : Option Nat :=
  if cs.head? = some '+' then parseDigits cs.tail else parseDigits cs

def rustParseU64 (cs : Str) : Option Nat :=
  (rustParseNat cs).bind (fun n => if n < 2 ^ 64 then some n else none)

def rustParseU32 (cs : Str) : Option Nat :=
  (rustParseNat cs).bind (fun n => if n < 2 ^ 32 then some n else none)

def rustParseU8 (cs : Str) : Option Nat :=
  (rustParseNat cs).bind (fun n => if n < 2 ^ 8 then some n else none)

/-- Rust signed integer `FromStr`: optional sign, then digits. -/
def rustParseIntRaw (cs : Str) : Option Int :=
  if cs.head? = some '-' then (parseDigits cs.tail).map (fun n : Nat => -(n : Int))
  else if cs.head? = some '+' then (parseDigits cs.tail).map (fun n : Nat => (n : Int))
  else (parseDigits cs).map (fun n : Nat => (n : Int))

def rustParseI64 (cs : Str) : Option Int :=
  (rustParseIntRaw cs).bind
    (fun z => if -(2 ^ 63) ≤ z ∧ z < 2 ^ 63 then some z else none)

/-- Decimal representation of an integer (Rust `i64` `Display`). -/
def intDigits (z : Int) : Str :=
  if z < 0 then '-' :: natDigits z.natAbs else natDigits z.natAbs

/-- Rust `bool` `Display`. -/
def boolChars (b : Bool) : Str :=
  if b then ['t', 'r', 'u', 'e'] else ['f', 'a', 'l', 's', 'e']

/-- Rust `bool` `FromStr`: exactly "true" or "false". -/
def rustParseBool (cs : Str) : Option Bool :=
  if cs = ['t', 'r', 'u', 'e'] then some true
  else if cs = ['f', 'a', 'l', 's', 'e'] then some false
  else none

/-! ### Proleptic Gregorian calendar (the `time` crate's date arithmetic) -/
/-- 1 when `y` is a Gregorian leap year, 0 otherwise. -/
def leapBit (y : Int) : Int :=
  if (y % 4 = 0 ∧ y % 100 ≠ 0) ∨ y % 400 = 0 then 1 else 0

/-- Accumulated leap-day count up to and including year `y`. -/
def leapsTo (y : Int) : Int := y / 4 - y / 100 + y / 400

/-- Days from the (arbitrary) anchor to January 1 of year `y`. -/
def daysBeforeYear (y : Int) : Int := 365 * y + leapsTo (y - 1)

/-- Number of days of month `m` (1-12) in year `y`. -/
def daysInMonth (y m : Int) : Int :=
  if m = 1 then 31 else if m = 2 then 28 + leapBit y
  else if m = 3 then 31 else if m = 4 then 30
  else if m = 5 then 31 else if m = 6 then 30
  else if m = 7 then 31 else if m = 8 then 31
  else if m = 9 then 30 else if m = 10 then 31
  else if m = 11 then 30 else if m = 12 then 31 else 0

/-- Days of year `y` that precede the first day of month `m`. -/
def daysBeforeMonth (y m : Int) : Int :=
  if m = 1 then 0 else if m = 2 then 31
  else if m = 3 then 59 + leapBit y else if m = 4 then 90 + leapBit y
  else if m = 5 then 120 + leapBit y else if m = 6 then 151 + leapBit y
  else if m = 7 then 181 + leapBit y else if m = 8 then 212 + leapBit y
  else if m = 9 then 243 + leapBit y else if m = 10 then 273 + leapBit y
  else if m = 11 then 304 + leapBit y else if m = 12 then 334 + leapBit y else 0

/-- Day count of the civil date `(y, m, d)` from the anchor. -/
def toDays (y m d : Int) : Int := daysBeforeYear y + daysBeforeMonth y m + d - 1

def epochDays : Int := toDays 1970 1 1

/-- ISO weekday number (Monday = 1 … Sunday = 7) of a civil date. -/
def weekdayNum (y m d : Int) : Int := (toDays y m d - epochDays + 3) % 7 + 1

def ValidDate (y m d : Int) : Prop :=
  1 ≤ m ∧ m ≤ 12 ∧ 1 ≤ d ∧ d ≤ daysInMonth y m

instance (y m d : Int) : Decidable (ValidDate y m d) := by
  unfold ValidDate; infer_instance

/-! ### Data model (`command_parser.rs` / `network_saver.rs`) -/
/-- Shorthand for turning a Lean string literal into the `List Char` model. -/
def strL (s : String) : Str := s.data

inductive TrafficPeriod where
  | Week
  | Month
  | Year
deriving DecidableEq

/-- The configuration fields the persistence engine reads and persists. -/
structure NetworkConfig where
  disable_network_statistics : Bool
  network_interval : Nat
  network_save_path : Str
  traffic_period : TrafficPeriod
  traffic_reset_day : Str
deriving DecidableEq

/-- The on-disk accounting record (`struct NetworkInfo`). -/
structure NetworkInfo where
  config : NetworkConfig
  boot_id : Str
  cycle_total_tx : Nat
  cycle_total_rx : Nat
  next_reset_timestamp : Int
  offset_tx : Int
  offset_rx : Int
deriving DecidableEq

/-- `i64::MIN`: the generic-invalidation sentinel. -/
def i64min : Int := -(2 ^ 63)

/-- Wrap an integer into the `i64` range (Rust `as i64` / wrapping arithmetic). -/
def wrap64 (x : Int) : Int := (x + 2 ^ 63) % 2 ^ 64 - 2 ^ 63

/-- Rust `u64 as i64`. -/
def i64cast (n : Nat) : Int := wrap64 (n : Int)

/-! ### Persistent state codec (`NetworkInfo::encode` / `NetworkInfo::decode`) -/
def periodChars : TrafficPeriod → Str
  | .Week => strL "Week"
  | .Month => strL "Month"
  | .Year => strL "Year"

def parsePeriodVal (v : Str) : Option TrafficPeriod :=
  if v = strL "Week" then some .Week
  else if v = strL "Month" then some .Month
  else if v = strL "Year" then some .Year
  else none

def kDisable : Str := strL "disable_network_statistics"

def kInterval : Str := strL "network_interval"

def kPath : Str := strL "network_save_path"

def kPeriod : Str := strL "traffic_period"

def kResetDay : Str := strL "traffic_reset_day"

def kBootId : Str := strL "boot_id"

def kCtx : Str := strL "cycle_total_tx"

def kCrx : Str := strL "cycle_total_rx"

def kNrt : Str := strL "next_reset_timestamp"

def kOtx : Str := strL "offset_tx"

def kOrx : Str := strL "offset_rx"

def kSourceTx : Str := strL "source_tx"

def kSourceRx : Str := strL "source_rx"

def encodeLine (k v : Str) : Str := k ++ '=' :: v ++ ['\n']

/-- `NetworkInfo::encode`: the eleven `key=value` lines, in source order. -/
def NetworkInfo.encode (i : NetworkInfo) : Str :=
  encodeLine kDisable (boolChars i.config.disable_network_statistics) ++
  encodeLine kInterval (natDigits i.config.network_interval) ++
  encodeLine kPath i.config.network_save_path ++
  encodeLine kPeriod (periodChars i.config.traffic_period) ++
  encodeLine kResetDay i.config.traffic_reset_day ++
  encodeLine kBootId i.boot_id ++
  encodeLine kCtx (natDigits i.cycle_total_tx) ++
  encodeLine kCrx (natDigits i.cycle_total_rx) ++
  encodeLine kNrt (intDigits i.next_reset_timestamp) ++
  encodeLine kOtx (intDigits i.offset_tx) ++
  encodeLine kOrx (intDigits i.offset_rx)

/-- Accumulator of `NetworkInfo::decode`'s line loop. -/
structure DecState where
  disable : Option Bool := none
  interval : Option Nat := none
  path : Option Str := none
  period : Option TrafficPeriod := none
  resetDay : Option Str := none
  bootId : Option Str := none
  ctx : Option Nat := none
  crx : Option Nat := none
  nrt : Option Int := none
  otx : Int := i64min
  orx : Int := i64min
deriving DecidableEq

inductive LineShape where
  | skip
  | malformed
  | kv (k v : Str)
deriving DecidableEq

/-- Classify one line the way the decode loop does: trim, skip blank/comment
lines, split at the first `'='`, trim key and value. -/
def lineShape (l : Str) : LineShape :=
  if trimChars l = [] then .skip
  else if (trimChars l).head? = some '#' then .skip
  else match splitOnceChar '=' (trimChars l) with
  | none => .malformed
  | some (k, v) => .kv (trimChars k) (trimChars v)

/-- The key-dispatch of the decode loop's `match key`. -/
def applyKV (st : DecState) (k v : Str) : Except String DecState :=
  if k = kDisable then
    match rustParseBool v with
    | some b => .ok { st with disable := some b }
    | none => .error "Invalid bool for key"
  else if k = kInterval then
    match rustParseU32 v with
    | some n => .ok { st with interval := some n }
    | none => .error "Invalid u32 for key"
  else if k = kPath then .ok { st with path := some v }
  else if k = kPeriod then .ok { st with period := parsePeriodVal v }
  else if k = kResetDay then .ok { st with resetDay := some v }
  else if k = kBootId then .ok { st with bootId := some v }
  else if k = kCtx then
    match rustParseU64 v with
    | some n => .ok { st with ctx := some n }
    | none => .error "Invalid u64 for key"
  else if k = kCrx then
    match rustParseU64 v with
    | some n => .ok { st with crx := some n }
    | none => .error "Invalid u64 for key"
  else if k = kNrt then
    match rustParseI64 v with
    | some z => .ok { st with nrt := some z }
    | none => .error "Invalid i64 for key"
  else if k = kOtx then
    match rustParseI64 v with
    | some z => .ok { st with otx := z }
    | none => .error "Invalid i64 for key"
  else if k = kOrx then
    match rustParseI64 v with
    | some z => .ok { st with orx := z }
    | none => .error "Invalid i64 for key"
  else .ok st

def processLine (st : DecState) (l : Str) : Except String DecState :=
  match lineShape l with
  | .skip => .ok st
  | .malformed => .error "Format error: expected key=value"
  | .kv k v => applyKV st k v

def processLines (st : DecState) : List Str → Except String DecState
  | [] => .ok st
  | l :: ls =>
    match processLine st l with
    | .error e => .error e
    | .ok st' => processLines st' ls

def linesOf (s : Str) : List Str := splitOnChar '\n' s

/-- Assemble the record from the loop state: the `ok_or` chain reports the
first missing required field, `traffic_period`/`traffic_reset_day` default. -/
def assembleInfo (st : DecState) : Except String NetworkInfo :=
  match st.disable with
  | none => .error "Missing field: disable_network_statistics"
  | some d =>
  match st.interval with
  | none => .error "Missing field: network_interval"
  | some iv =>
  match st.path with
  | none => .error "Missing field: network_save_path"
  | some p =>
  match st.bootId with
  | none => .error "Missing field: boot_id"
  | some b =>
  match st.ctx with
  | none => .error "Missing field: cycle_total_tx"
  | some ctx =>
  match st.crx with
  | none => .error "Missing field: cycle_total_rx"
  | some crx =>
  match st.nrt with
  | none => .error "Missing field: next_reset_timestamp"
  | some nrt =>
    .ok { config := { disable_network_statistics := d,
                      network_interval := iv,
                      network_save_path := p,
                      traffic_period := st.period.getD .Month,
                      traffic_reset_day := st.resetDay.getD (strL "1") },
          boot_id := b,
          cycle_total_tx := ctx,
          cycle_total_rx := crx,
          next_reset_timestamp := nrt,
          offset_tx := st.otx,
          offset_rx := st.orx }

/-- `NetworkInfo::decode`. -/
def NetworkInfo.decode (input : Str) : Except String NetworkInfo :=
  match processLines {} (linesOf input) with
  | .error e => .error e
  | .ok st => assembleInfo st

/-- `parse_old_format_for_migration`: recover `source_tx`/`source_rx` from the
legacy format; last occurrence of a key wins, and an unparseable value resets
the field to `None`. -/
def parse_old_format_for_migration (input : Str) : Option (Nat × Nat) :=
  let final := (linesOf input).foldl
    (fun (st : Option Nat × Option Nat) l =>
      match splitOnceChar '=' l with
      | none => st
      | some (k0, v0) =>
        let k := trimChars k0
        let v := trimChars v0
        if k = kSourceTx then (rustParseU64 v, st.2)
        else if k = kSourceRx then (st.1, rustParseU64 v)
        else st)
    (none, none)
  match final with
  | (some a, some b) => some (a, b)
  | _ => none

/-! ### Calendar scheduler (`calculate_next_reset_timestamp`) -/
/-- The current moment, as the `time` crate's UTC `OffsetDateTime`: a civil
date plus the seconds elapsed since that date's midnight. -/
structure DateTime where
  year : Int
  month : Int
  day : Int
  sod : Int
deriving DecidableEq

def ValidDateTime (dt : DateTime) : Prop :=
  ValidDate dt.year dt.month dt.day ∧ 0 ≤ dt.sod ∧ dt.sod < 86400

instance (dt : DateTime) : Decidable (ValidDateTime dt) := by
  unfold ValidDateTime; infer_instance

/-- Unix timestamp of midnight of a civil date. -/
def dateTs (y m d : Int) : Int := 86400 * (toDays y m d - epochDays)

/-- `OffsetDateTime::unix_timestamp`. -/
def dtTimestamp (dt : DateTime) : Int := dateTs dt.year dt.month dt.day + dt.sod

/-- ASCII lowering (the fragment of `str::to_lowercase` relevant to the
weekday tokens). -/
def asciiLower (c : Char) : Char :=
  if 'A' ≤ c ∧ c ≤ 'Z' then Char.ofNat (c.toNat + 32) else c

def lowerStr (s : Str) : Str := s.map asciiLower

/-- The weekday-token match of the `Week` arm. -/
def parseWeekdayToken (t : Str) : Option Int :=
  if t = strL "mon" ∨ t = strL "1" then some 1
  else if t = strL "tue" ∨ t = strL "2" then some 2
  else if t = strL "wed" ∨ t = strL "3" then some 3
  else if t = strL "thu" ∨ t = strL "4" then some 4
  else if t = strL "fri" ∨ t = strL "5" then some 5
  else if t = strL "sat" ∨ t = strL "6" then some 6
  else if t = strL "sun" ∨ t = strL "7" then some 7
  else none

/-- `days_to_add` of the `Week` arm. -/
def weekDelta (target wd : Int) : Int :=
  if target - wd ≤ 0 then target - wd + 7 else target - wd

/-- The `Week` arm of `calculate_next_reset_timestamp`: midnight of
`now.date + days_to_add`. -/
def nextResetWeek (rds : Str) (now : DateTime) : Except String Int :=
  match parseWeekdayToken (lowerStr rds) with
  | none => .error "Invalid weekday, must be 1-7 or mon-sun"
  | some target =>
    .ok (86400 * (toDays now.year now.month now.day +
      weekDelta target (weekdayNum now.year now.month now.day) - epochDays))

/-- The `Month` arm's target date: clamp the configured day to the current
month; if `now.day` has reached it, advance one month (rolling the year at
December) and reclamp.  Returns `(year, month, day)`. -/
def monthFinal (now : DateTime) (rd : Int) : Int × Int × Int :=
  if min rd (daysInMonth now.year now.month) ≤ now.day then
    if now.month = 12 then
      (now.year + 1, 1, min rd (daysInMonth (now.year + 1) 1))
    else
      (now.year, now.month + 1, min rd (daysInMonth now.year (now.month + 1)))
  else (now.year, now.month, min rd (daysInMonth now.year now.month))

/-- The `Month` arm of `calculate_next_reset_timestamp`. -/
def nextResetMonth (rds : Str) (now : DateTime) : Except String Int :=
  match rustParseU8 rds with
  | none => .error "Invalid day of month, must be a number 1-31"
  | some rd =>
    if 1 ≤ rd ∧ rd ≤ 31 then
      .ok (dateTs (monthFinal now rd).1 (monthFinal now rd).2.1 (monthFinal now rd).2.2)
    else .error "Invalid day of month, must be 1-31"

/-- The `Year` arm once "MM/DD" has parsed: no clamping — the candidate date
is validated, and validated again after rolling to the next year when
`now.date` has reached it. -/
def yearFromParts (now : DateTime) (mo d : Nat) : Except String Int :=
  if 1 ≤ mo ∧ mo ≤ 12 then
    if 1 ≤ (d : Int) ∧ (d : Int) ≤ daysInMonth now.year mo then
      if now.month < mo ∨ (now.month = mo ∧ now.day < d) then
        .ok (dateTs now.year mo d)
      else
        if (d : Int) ≤ daysInMonth (now.year + 1) mo then
          .ok (dateTs (now.year + 1) mo d)
        else .error "Invalid date for next year"
    else .error "Invalid date"
  else .error "Invalid month value, must be 1-12"

/-- The `Year` arm of `calculate_next_reset_timestamp`. -/
def nextResetYear (rds : Str) (now : DateTime) : Except String Int :=
  match splitOnChar '/' rds with
  | [a, b] =>
    match rustParseU8 a, rustParseU8 b with
    | some mo, some d => yearFromParts now mo d
    | _, _ => .error "Invalid month or day"
  | _ => .error "Invalid date format for year reset, expected MM/DD"

/-- `calculate_next_reset_timestamp`.  The returned value is the Unix
timestamp of the computed date's midnight (the code materialises the date
with the `time` crate and converts via `unix_timestamp`; the embedding
computes the day count directly, so date-plus-days composition is already
folded in). -/
def calculate_next_reset_timestamp (cfg : NetworkConfig) (now : DateTime) :
    Except String Int :=
  match cfg.traffic_period with
  | .Week => nextResetWeek cfg.traffic_reset_day now
  | .Month => nextResetMonth cfg.traffic_reset_day now
  | .Year => nextResetYear cfg.traffic_reset_day now

/-- `days_in_month` of the source (computed there via the `time` crate). -/
def days_in_month (year : Int) (month : Int) : Int := daysInMonth year month

/-! ### State recovery (`initialize_network_state_and_offset`) -/
/-- Lines 233-267: build the in-memory record from the file contents —
fresh file, successful decode, or migration of a corrupt/old-format file. -/
def buildInitialRecord (cfg : NetworkConfig) (rawData : Str) (now : DateTime)
    (newBootId : Str) : Except String NetworkInfo :=
  if rawData = [] then
    match calculate_next_reset_timestamp cfg now with
    | .error e => .error e
    | .ok nrt =>
      .ok { config := cfg, boot_id := newBootId, cycle_total_tx := 0,
            cycle_total_rx := 0, next_reset_timestamp := nrt,
            offset_tx := i64min + 2, offset_rx := i64min + 2 }
  else
    match NetworkInfo.decode rawData with
    | .ok info => .ok info
    | .error _ =>
      match calculate_next_reset_timestamp cfg now with
      | .error e => .error e
      | .ok nrt =>
        .ok { config := cfg, boot_id := newBootId,
              cycle_total_tx := ((parse_old_format_for_migration rawData).getD (0, 0)).1,
              cycle_total_rx := ((parse_old_format_for_migration rawData).getD (0, 0)).2,
              next_reset_timestamp := nrt,
              offset_tx := i64min + 2, offset_rx := i64min + 2 }

/-- Lines 300-323 (step 7): resolve sentinel offsets against the raw sample. -/
def resolveOffsets (info : NetworkInfo) (rawTx rawRx : Nat) : NetworkInfo :=
  if info.offset_tx = i64min then
    { info with
      offset_tx := wrap64 (i64cast info.cycle_total_tx - i64cast rawTx),
      offset_rx := wrap64 (i64cast info.cycle_total_rx - i64cast rawRx) }
  else if info.offset_tx = i64min + 1 then
    { info with
      offset_tx := i64cast info.cycle_total_tx,
      offset_rx := i64cast info.cycle_total_rx }
  else if info.offset_tx = i64min + 2 then
    if info.cycle_total_tx = 0 ∧ info.cycle_total_rx = 0 then
      { info with offset_tx := 0, offset_rx := 0 }
    else
      { info with
        offset_tx := wrap64 (i64cast info.cycle_total_tx - i64cast rawTx),
        offset_rx := wrap64 (i64cast info.cycle_total_rx - i64cast rawRx) }
  else info

/-- Step 1 (lines 269-274): on a configuration change, recompute the next
reset instant and replace the stored configuration. -/
def applyConfigChange (cfg : NetworkConfig) (now : DateTime) (info : NetworkInfo) :
    Except String NetworkInfo :=
  if info.config ≠ cfg then
    match calculate_next_reset_timestamp cfg now with
    | .error e => .error e
    | .ok nrt => .ok { info with next_reset_timestamp := nrt, config := cfg }
  else .ok info

/-- Step 2 (lines 276-284): if the cycle has ended, zero the totals, schedule
the next reset and mark the offsets with the generic-invalidation sentinel. -/
def applyCycleRollover (cfg : NetworkConfig) (now : DateTime) (info : NetworkInfo) :
    Except String NetworkInfo :=
  if dtTimestamp now ≥ info.next_reset_timestamp then
    match calculate_next_reset_timestamp cfg now with
    | .error e => .error e
    | .ok nrt =>
      .ok { info with
            cycle_total_tx := 0
            cycle_total_rx := 0
            next_reset_timestamp := nrt
            offset_tx := i64min
            offset_rx := i64min }
  else .ok info

/-- Step 3 (lines 286-294): on a detected reboot mark the offsets with the
reboot sentinel; store the new boot id in every case. -/
def applyRebootAndStoreBootId (newBootId : Str) (isLinux : Bool)
    (info : NetworkInfo) : NetworkInfo :=
  if isLinux ∧ newBootId ≠ [] ∧ info.boot_id ≠ newBootId then
    { info with offset_tx := i64min + 1, offset_rx := i64min + 1, boot_id := newBootId }
  else { info with boot_id := newBootId }

/-- `initialize_network_state_and_offset`, as a pure function of the file
contents, the clock, the host boot id, the platform flag and the raw counter
sample (the file I/O and the publish to the shared cell are the impure
surroundings). -/
def initialize_network_state_and_offset (cfg : NetworkConfig) (rawData : Str)
    (now : DateTime) (newBootId : Str) (isLinux : Bool) (rawTx rawRx : Nat) :
    Except String NetworkInfo :=
  match buildInitialRecord cfg rawData now newBootId with
  | .error e => .error e
  | .ok info0 =>
    match applyConfigChange cfg now info0 with
    | .error e => .error e
    | .ok info1 =>
      match applyCycleRollover cfg now info1 with
      | .error e => .error e
      | .ok info2 =>
        .ok (resolveOffsets (applyRebootAndStoreBootId newBootId isLinux info2)
              rawTx rawRx)

/-! ### Accounting driver (`network_saver`'s inner sample loop) -/
/-- One iteration of the sample loop (lines 180-207): after the sleep, read
the clock; at or past the reset instant, exit without writing (`none`);
otherwise recompute the cycle totals from the raw sample and the cycle's
constant offsets and persist the record (`some`). -/
def sampleStep (offTx offRx : Int) (info : NetworkInfo) (now : Int)
    (rawTx rawRx : Nat) : Option NetworkInfo :=
  if now ≥ info.next_reset_timestamp then none
  else
    some { info with
      cycle_total_tx := (max (wrap64 (i64cast rawTx + offTx)) 0).toNat,
      cycle_total_rx := (max (wrap64 (i64cast rawRx + offRx)) 0).toNat }

/-- Run the sample loop over a finite schedule of clock readings and raw
samples; returns the sequence of persisted records (paired with their inputs)
in order.  The loop stops at the first reading at or past the reset instant,
writing nothing for it. -/
def sampleLoop (offTx offRx : Int) (info : NetworkInfo) :
    List (Int × Nat × Nat) → List (Int × Nat × Nat × NetworkInfo)
  | [] => []
  | (now, rawTx, rawRx) :: rest =>
    match sampleStep offTx offRx info now rawTx rawRx with
    | none => []
    | some info2 => (now, rawTx, rawRx, info2) :: sampleLoop offTx offRx info2 rest

/-! ### Decode-loop analysis -/
/-- Exhaustive description of one successful key-dispatch step. -/
def DStep (st st1 : DecState) (k v : Str) : Prop :=
  (k = kDisable ∧ ∃ b, rustParseBool v = some b ∧ st1 = { st with disable := some b }) ∨
  (k = kInterval ∧ ∃ n, rustParseU32 v = some n ∧ st1 = { st with interval := some n }) ∨
  (k = kPath ∧ st1 = { st with path := some v }) ∨
  (k = kPeriod ∧ st1 = { st with period := parsePeriodVal v }) ∨
  (k = kResetDay ∧ st1 = { st with resetDay := some v }) ∨
  (k = kBootId ∧ st1 = { st with bootId := some v }) ∨
  (k = kCtx ∧ ∃ n, rustParseU64 v = some n ∧ st1 = { st with ctx := some n }) ∨
  (k = kCrx ∧ ∃ n, rustParseU64 v = some n ∧ st1 = { st with crx := some n }) ∨
  (k = kNrt ∧ ∃ z, rustParseI64 v = some z ∧ st1 = { st with nrt := some z }) ∨
  (k = kOtx ∧ ∃ z, rustParseI64 v = some z ∧ st1 = { st with otx := z }) ∨
  (k = kOrx ∧ ∃ z, rustParseI64 v = some z ∧ st1 = { st with orx := z }) ∨
  st1 = st

/-- Whether some line of the input carries the given key. -/
def hasKeyL (ls : List Str) (k : Str) : Prop := ∃ l ∈ ls, ∃ v, lineShape l = .kv k v

/-- A line carrying a typed key whose value does not parse at that type. -/
def BadValueLine (l : Str) : Prop :=
  ∃ k v, lineShape l = .kv k v ∧
    ((k = kDisable ∧ rustParseBool v = none) ∨
     (k = kInterval ∧ rustParseU32 v = none) ∨
     (k = kCtx ∧ rustParseU64 v = none) ∨
     (k = kCrx ∧ rustParseU64 v = none) ∨
     (k = kNrt ∧ rustParseI64 v = none) ∨
     (k = kOtx ∧ rustParseI64 v = none) ∨
     (k = kOrx ∧ rustParseI64 v = none))

/-- A Rust string value that survives the codec format: trim-invariant and
newline-free (the format is line-based and the decoder trims each value). -/
def ValidStr (s : Str) : Prop := trimChars s = s ∧ '\n' ∉ s

/-- A syntactically valid record: string fields survive the line format, and
the numeric fields lie in their machine ranges (`u32`/`u64`/`i64`). -/
def ValidRecord (r : NetworkInfo) : Prop :=
  ValidStr r.config.network_save_path ∧ ValidStr r.config.traffic_reset_day ∧
  ValidStr r.boot_id ∧
  r.config.network_interval < 2 ^ 32 ∧
  r.cycle_total_tx < 2 ^ 64 ∧ r.cycle_total_rx < 2 ^ 64 ∧
  -(2 ^ 63) ≤ r.next_reset_timestamp ∧ r.next_reset_timestamp < 2 ^ 63 ∧
  -(2 ^ 63) ≤ r.offset_tx ∧ r.offset_tx < 2 ^ 63 ∧
  -(2 ^ 63) ≤ r.offset_rx ∧ r.offset_rx < 2 ^ 63

/-! ### Decidability of `Except` equality (for concrete evaluations) -/
instance exceptDecEq {e a : Type} [DecidableEq e] [DecidableEq a] :
    DecidableEq (Except e a) := fun x y =>
  match x, y with
  | .ok u, .ok v =>
    if h : u = v then isTrue (by rw [h])
    else isFalse (by intro hc; cases hc; exact h rfl)
  | .error u, .error v =>
    if h : u = v then isTrue (by rw [h])
    else isFalse (by intro hc; cases hc; exact h rfl)
  | .ok _, .error _ => isFalse (by intro hc; cases hc)
  | .error _, .ok _ => isFalse (by intro hc; cases hc)

/-! ### Concrete scenarios used by witnesses and counterexamples -/
def exCfgMonth31 : NetworkConfig :=
  { disable_network_statistics := false
    network_interval := 1
    network_save_path := strL "p"
    traffic_period := .Month
    traffic_reset_day := strL "31" }

def exCfgWeekMon : NetworkConfig :=
  { disable_network_statistics := false
    network_interval := 1
    network_save_path := strL "p"
    traffic_period := .Week
    traffic_reset_day := strL "mon" }

def exCfgYearFeb29 : NetworkConfig :=
  { disable_network_statistics := false
    network_interval := 1
    network_save_path := strL "p"
    traffic_period := .Year
    traffic_reset_day := strL "02/29" }

def exCfgYearDec31 : NetworkConfig :=
  { disable_network_statistics := false
    network_interval := 1
    network_save_path := strL "p"
    traffic_period := .Year
    traffic_reset_day := strL "12/31" }

def exNowFeb15 : DateTime := { year := 2024, month := 2, day := 15, sod := 0 }

def exNowFeb29 : DateTime := { year := 2024, month := 2, day := 29, sod := 0 }

def exNowJun1 : DateTime := { year := 2024, month := 6, day := 1, sod := 0 }

/-- A record as stored on disk for the configuration-change scenario:
Month-mode config, 100 bytes accumulated, a valid (non-sentinel) offset. -/
def exRecC1 : NetworkInfo :=
  { config := exCfgMonth31
    boot_id := strL "A"
    cycle_total_tx := 100
    cycle_total_rx := 0
    next_reset_timestamp := 1709164800
    offset_tx := 5
    offset_rx := 5 }

/-- The same stored record, as its on-disk text. -/
def rawC1 : Str := strL
  "disable_network_statistics=false\nnetwork_interval=1\nnetwork_save_path=p\ntraffic_period=Month\ntraffic_reset_day=31\nboot_id=A\ncycle_total_tx=100\ncycle_total_rx=0\nnext_reset_timestamp=1709164800\noffset_tx=5\noffset_rx=5\n"

/-- The record the recovery run produces in the configuration-change
scenario: totals kept, schedule recomputed by the Week rule, config replaced,
valid offsets kept. -/
def exC1out : NetworkInfo :=
  { config := exCfgWeekMon
    boot_id := strL "A"
    cycle_total_tx := 100
    cycle_total_rx := 0
    next_reset_timestamp := 1708300800
    offset_tx := 5
    offset_rx := 5 }

/-- On-disk text whose `offset_tx` key is absent (decoding to the
generic-invalidation sentinel) while `offset_rx` holds the valid value 5. -/
def rawC2 : Str := strL
  "disable_network_statistics=false\nnetwork_interval=1\nnetwork_save_path=p\ntraffic_period=Month\ntraffic_reset_day=31\nboot_id=A\ncycle_total_tx=0\ncycle_total_rx=0\nnext_reset_timestamp=1709164800\noffset_rx=5\n"

/-- A record carrying a reserved sentinel offset, for the round-trip claim. -/
def exRecC3 : NetworkInfo :=
  { config := exCfgMonth31
    boot_id := strL "A"
    cycle_total_tx := 100
    cycle_total_rx := 7
    next_reset_timestamp := 1709164800
    offset_tx := i64min
    offset_rx := i64min + 2 }

/-- On-disk text with every required key but neither `traffic_period` nor
`traffic_reset_day`. -/
def rawC4 : Str := strL
  "disable_network_statistics=false\nnetwork_interval=1\nnetwork_save_path=p\nboot_id=A\ncycle_total_tx=0\ncycle_total_rx=0\nnext_reset_timestamp=5\n"

/-- The same text with an unrecognized `traffic_period` value prepended. -/
def rawC4bogus : Str := strL "traffic_period=Bogus\n" ++ rawC4

/-- The record `rawC4` decodes to: the defaults `Month` and `"1"` fill the
two absent configuration keys. -/
def exRecC4 : NetworkInfo :=
  { config := { disable_network_statistics := false
                network_interval := 1
                network_save_path := strL "p"
                traffic_period := .Month
                traffic_reset_day := strL "1" }
    boot_id := strL "A"
    cycle_total_tx := 0
    cycle_total_rx := 0
    next_reset_timestamp := 5
    offset_tx := i64min
    offset_rx := i64min }

/-- Legacy-format file contents for the migration scenario. -/
def rawC8 : Str := strL "source_tx=11\nsource_rx=22\n"

/-- The record recovery builds from the legacy file `rawC8`. -/
def exRecC8 : NetworkInfo :=
  { config := exCfgMonth31
    boot_id := strL "B"
    cycle_total_tx := 11
    cycle_total_rx := 22
    next_reset_timestamp := 1709164800
    offset_tx := i64min + 2
    offset_rx := i64min + 2 }

/-- A mid-cycle record for the sample-loop scenario. -/
def exRecC9 : NetworkInfo :=
  { config := exCfgMonth31
    boot_id := strL "A"
    cycle_total_tx := 0
    cycle_total_rx := 0
    next_reset_timestamp := 1000
    offset_tx := 5
    offset_rx := -3 }

/-- The key a line carries, if any. -/
def lineKeyOf (l : Str) : Option Str :=
  match lineShape l with
  | .kv k _ => some k
  | _ => none

/-! ## Theorems -/

/-! ### Round-trip lemmas for the primitive printers/parsers -/
theorem digitChar_mem_range {d : Nat} (h : d < 10) :
    48 ≤ (digitChar d).toNat ∧ (digitChar d).toNat ≤ 57 := by
  interval_cases d <;> decide

theorem isDigitC_digitChar {d : Nat} (h : d < 10) : isDigitC (digitChar d) = true := by
  interval_cases d <;> decide

theorem charToDigit_digitChar {d : Nat} (h : d < 10) : charToDigit (digitChar d) = d := by
  interval_cases d <;> decide

theorem natDigits_ne_nil (n : Nat) : natDigits n ≠ [] := by
  unfold natDigits
  rcases Nat.eq_zero_or_pos n with h | h
  · subst h; simp
  · have hne : n ≠ 0 := Nat.pos_iff_ne_zero.mp h
    have : Nat.digits 10 n ≠ [] := Nat.digits_ne_nil_iff_ne_zero.mpr hne
    simp only [if_neg hne]
    intro hcon
    rcases List.append_eq_nil.mp hcon with ⟨h1, _⟩
    exact this (by simpa using List.reverse_eq_nil_iff.mp h1)

theorem mem_natDigits_isDigit {n : Nat} {c : Char} (h : c ∈ natDigits n) :
    isDigitC c = true := by
  unfold natDigits at h
  rcases List.mem_append.mp h with h | h
  · rcases List.mem_reverse.mp h with h
    rcases List.mem_map.mp h with ⟨d, hd, rfl⟩
    exact isDigitC_digitChar (Nat.digits_lt_base (by norm_num) hd)
  · split at h
    · simp at h; subst h; decide
    · simp at h

/-- Core invariant for parsing a digit string produced by `Nat.digits`. -/
theorem parseDigits_core (a : Nat) (ds : List Nat) (hds : ∀ d ∈ ds, d < 10) :
    List.foldl (fun o c => o.bind
      (fun x => if isDigitC c then some (x * 10 + charToDigit c) else none))
      (some a) ((ds.map digitChar).reverse)
      = some (a * 10 ^ ds.length + Nat.ofDigits 10 ds) := by
  induction ds generalizing a with
  | nil => simp
  | cons d rest ih =>
    have hd : d < 10 := hds d (by simp)
    have hrest : ∀ x ∈ rest, x < 10 := fun x hx => hds x (by simp [hx])
    simp only [List.map_cons, List.reverse_cons, List.foldl_append, List.foldl_cons,
      List.foldl_nil]
    rw [ih a hrest]
    simp only [Option.some_bind, isDigitC_digitChar hd, if_pos, charToDigit_digitChar hd,
      Nat.ofDigits_cons, List.length_cons]
    congr 1
    ring

theorem parseDigits_natDigits (n : Nat) : parseDigits (natDigits n) = some n := by
  unfold parseDigits
  rw [if_neg (natDigits_ne_nil n)]
  rcases Nat.eq_zero_or_pos n with h | h
  · subst h
    simp only [natDigits, Nat.digits_zero, List.map_nil, List.reverse_nil, if_pos rfl,
      List.nil_append, List.foldl_cons, List.foldl_nil]
    decide
  · have hne : n ≠ 0 := Nat.pos_iff_ne_zero.mp h
    unfold natDigits
    simp only [if_neg hne, List.append_nil]
    have := parseDigits_core 0 (Nat.digits 10 n)
      (fun d hd => Nat.digits_lt_base (by norm_num) hd)
    rw [this]
    simp [Nat.ofDigits_digits]

theorem natDigits_head_isDigit {n : Nat} {c : Char} (h : (natDigits n).head? = some c) :
    isDigitC c = true := by
  cases hnd : natDigits n with
  | nil => exact absurd hnd (natDigits_ne_nil n)
  | cons x xs =>
    rw [hnd] at h
    simp only [List.head?_cons, Option.some.injEq] at h
    subst h
    exact mem_natDigits_isDigit (hnd ▸ List.mem_cons_self x xs)

theorem natDigits_head_ne_plus (n : Nat) : (natDigits n).head? ≠ some '+' := by
  intro h
  have := natDigits_head_isDigit h
  simp [isDigitC] at this

theorem natDigits_head_ne_minus (n : Nat) : (natDigits n).head? ≠ some '-' := by
  intro h
  have := natDigits_head_isDigit h
  simp [isDigitC] at this

theorem rustParseNat_natDigits (n : Nat) : rustParseNat (natDigits n) = some n := by
  unfold rustParseNat
  rw [if_neg (natDigits_head_ne_plus n)]
  exact parseDigits_natDigits n

theorem rustParseU64_natDigits {n : Nat} (h : n < 2 ^ 64) :
    rustParseU64 (natDigits n) = some n := by
  unfold rustParseU64
  rw [rustParseNat_natDigits]
  simp only [Option.some_bind]
  rw [if_pos h]

theorem rustParseU32_natDigits {n : Nat} (h : n < 2 ^ 32) :
    rustParseU32 (natDigits n) = some n := by
  unfold rustParseU32
  rw [rustParseNat_natDigits]
  simp only [Option.some_bind]
  rw [if_pos h]

theorem rustParseIntRaw_intDigits (z : Int) : rustParseIntRaw (intDigits z) = some z := by
  unfold intDigits rustParseIntRaw
  rcases lt_or_le z 0 with h | h
  · simp only [if_pos h, List.head?_cons, if_pos rfl, List.tail_cons, parseDigits_natDigits,
      Option.map_some', if_true, Option.some.injEq]
    omega
  · rw [if_neg (not_lt.mpr h), if_neg (natDigits_head_ne_minus _),
      if_neg (natDigits_head_ne_plus _), parseDigits_natDigits]
    simp only [Option.map_some', Option.some.injEq]
    omega

theorem rustParseI64_intDigits {z : Int} (h1 : -(2 ^ 63) ≤ z) (h2 : z < 2 ^ 63) :
    rustParseI64 (intDigits z) = some z := by
  unfold rustParseI64
  rw [rustParseIntRaw_intDigits]
  simp only [Option.some_bind]
  rw [if_pos ⟨h1, h2⟩]

theorem rustParseBool_boolChars (b : Bool) : rustParseBool (boolChars b) = some b := by
  cases b <;> decide

/-! ### Trim and split lemmas -/
theorem dropWhile_eq_self_of_trim {l : Str} (h : trimChars l = l) :
    l.dropWhile isWS = l := by
  have hsfx : (l.dropWhile isWS) <:+ l := List.dropWhile_suffix isWS
  have h2 : ((l.dropWhile isWS).reverse.dropWhile isWS) <:+ (l.dropWhile isWS).reverse :=
    List.dropWhile_suffix isWS
  have hlen2 : ((l.dropWhile isWS).reverse.dropWhile isWS).length ≤
      (l.dropWhile isWS).length := by
    simpa using h2.length_le
  have hlen : (trimChars l).length ≤ (l.dropWhile isWS).length := by
    simpa [trimChars] using hlen2
  rw [h] at hlen
  exact hsfx.eq_of_length (le_antisymm hsfx.length_le hlen)

theorem head_not_WS_of_trim {l : Str} (h : trimChars l = l) {c : Char}
    (hc : l.head? = some c) : isWS c = false := by
  have hd := dropWhile_eq_self_of_trim h
  cases l with
  | nil => simp at hc
  | cons x xs =>
    simp only [List.head?_cons, Option.some.injEq] at hc
    subst hc
    by_contra hws
    simp only [Bool.not_eq_false] at hws
    rw [List.dropWhile_cons_of_pos hws] at hd
    have hlen := congrArg List.length hd
    simp only [List.length_cons] at hlen
    have hle : (xs.dropWhile isWS).length ≤ xs.length :=
      (List.dropWhile_suffix isWS).length_le
    omega

theorem trim_reverse_drop {l : Str} (h : trimChars l = l) :
    l.reverse.dropWhile isWS = l.reverse := by
  have h1 := dropWhile_eq_self_of_trim h
  have : trimChars l = (l.reverse.dropWhile isWS).reverse := by
    simp [trimChars, h1]
  rw [h] at this
  have := congrArg List.reverse this
  simpa using this.symm

theorem leapBit_bound (y : Int) : 0 ≤ leapBit y ∧ leapBit y ≤ 1 := by
  unfold leapBit; split <;> omega

theorem leapsTo_step (y : Int) : leapsTo y - leapsTo (y - 1) = leapBit y := by
  unfold leapsTo leapBit
  split <;> omega

theorem daysBeforeYear_step (y : Int) :
    daysBeforeYear (y + 1) = daysBeforeYear y + 365 + leapBit y := by
  have h := leapsTo_step y
  unfold daysBeforeYear
  have : y + 1 - 1 = y := by omega
  rw [this]
  omega

theorem daysBeforeYear_mono {a b : Int} (h : a ≤ b) :
    daysBeforeYear a ≤ daysBeforeYear b := by
  refine Int.le_induction (P := fun t => daysBeforeYear a ≤ daysBeforeYear t)
    (le_refl _) ?_ b h
  intro n _ ih
  have hs := daysBeforeYear_step n
  have hb := leapBit_bound n
  omega

theorem daysInMonth_bound {y m : Int} (h1 : 1 ≤ m) (h2 : m ≤ 12) :
    28 ≤ daysInMonth y m ∧ daysInMonth y m ≤ 31 := by
  have hb := leapBit_bound y
  interval_cases m <;> simp only [daysInMonth] <;> norm_num <;> omega

theorem daysBeforeMonth_nonneg {y m : Int} (h1 : 1 ≤ m) (h2 : m ≤ 12) :
    0 ≤ daysBeforeMonth y m := by
  have hb := leapBit_bound y
  interval_cases m <;> simp only [daysBeforeMonth] <;> norm_num <;> omega

theorem daysBeforeMonth_add_le {y m : Int} (h1 : 1 ≤ m) (h2 : m ≤ 12) :
    daysBeforeMonth y m + daysInMonth y m ≤ 365 + leapBit y := by
  have hb := leapBit_bound y
  interval_cases m <;> simp only [daysBeforeMonth, daysInMonth] <;> norm_num <;> omega

theorem daysBeforeMonth_succ {y m : Int} (h1 : 1 ≤ m) (h2 : m ≤ 11) :
    daysBeforeMonth y (m + 1) = daysBeforeMonth y m + daysInMonth y m := by
  have hb := leapBit_bound y
  interval_cases m <;> simp only [daysBeforeMonth, daysInMonth] <;> norm_num <;> omega

theorem daysBeforeMonth_mono {y m1 m2 : Int} (h1 : 1 ≤ m1) (h12 : m1 < m2)
    (h2 : m2 ≤ 12) : daysBeforeMonth y m1 + daysInMonth y m1 ≤ daysBeforeMonth y m2 := by
  have hb := leapBit_bound y
  have hub : m1 ≤ 11 := by omega
  have hlb : 2 ≤ m2 := by omega
  interval_cases m1 <;> interval_cases m2 <;>
    simp only [daysBeforeMonth, daysInMonth] <;> norm_num <;> omega

/-- Strict monotonicity of the day count with respect to calendar order. -/
theorem toDays_lt {y1 m1 d1 y2 m2 d2 : Int} (hv1 : ValidDate y1 m1 d1)
    (hv2 : ValidDate y2 m2 d2)
    (hlt : y1 < y2 ∨ (y1 = y2 ∧ (m1 < m2 ∨ (m1 = m2 ∧ d1 < d2)))) :
    toDays y1 m1 d1 < toDays y2 m2 d2 := by
  obtain ⟨hm1a, hm1b, hd1a, hd1b⟩ := hv1
  obtain ⟨hm2a, hm2b, hd2a, hd2b⟩ := hv2
  rcases hlt with hy | ⟨rfl, hm | ⟨rfl, hd⟩⟩
  · have hstep := daysBeforeYear_step y1
    have hmono : daysBeforeYear (y1 + 1) ≤ daysBeforeYear y2 :=
      daysBeforeYear_mono (by omega)
    have hup : daysBeforeMonth y1 m1 + daysInMonth y1 m1 ≤ 365 + leapBit y1 :=
      daysBeforeMonth_add_le hm1a hm1b
    have hlo : 0 ≤ daysBeforeMonth y2 m2 := daysBeforeMonth_nonneg hm2a hm2b
    unfold toDays
    omega
  · have := daysBeforeMonth_mono (y := y1) hm1a hm hm2b
    unfold toDays
    omega
  · unfold toDays
    omega

theorem wrap64_eq_self {x : Int} (h1 : -(2 ^ 63) ≤ x) (h2 : x < 2 ^ 63) :
    wrap64 x = x := by
  unfold wrap64
  omega

theorem i64cast_eq_self {n : Nat} (h : (n : Int) < 2 ^ 63) : i64cast n = (n : Int) := by
  unfold i64cast
  exact wrap64_eq_self (by omega) h

/-! ### Scheduler lemmas -/
theorem parseWeekdayToken_range {t : Str} {w : Int}
    (h : parseWeekdayToken t = some w) : 1 ≤ w ∧ w ≤ 7 := by
  unfold parseWeekdayToken at h
  split_ifs at h <;> simp_all <;> omega

theorem weekdayNum_range (y m d : Int) :
    1 ≤ weekdayNum y m d ∧ weekdayNum y m d ≤ 7 := by
  unfold weekdayNum
  omega

theorem nextResetWeek_gt {rds : Str} {now : DateTime} {ts : Int}
    (hv : ValidDateTime now) (h : nextResetWeek rds now = .ok ts) :
    dtTimestamp now < ts := by
  obtain ⟨_, hs1, hs2⟩ := hv
  unfold nextResetWeek at h
  split at h
  · exact absurd h (by simp)
  · next target hp =>
    have ht := parseWeekdayToken_range hp
    have hw := weekdayNum_range now.year now.month now.day
    have hδ : 1 ≤ weekDelta target (weekdayNum now.year now.month now.day) := by
      unfold weekDelta
      split <;> omega
    injection h with h
    subst h
    unfold dtTimestamp dateTs
    omega

theorem monthFinal_spec {now : DateTime} {rd : Int}
    (hv : ValidDate now.year now.month now.day) (hrd1 : 1 ≤ rd) (hrd2 : rd ≤ 31) :
    ValidDate (monthFinal now rd).1 (monthFinal now rd).2.1 (monthFinal now rd).2.2 ∧
    toDays now.year now.month now.day <
      toDays (monthFinal now rd).1 (monthFinal now rd).2.1 (monthFinal now rd).2.2 := by
  obtain ⟨hm1, hm2, hd1, hd2⟩ := hv
  unfold monthFinal
  split_ifs with hadv hdec
  · have h31 : daysInMonth (now.year + 1) 1 = 31 := by simp [daysInMonth]
    have hminA : min rd (daysInMonth (now.year + 1) 1) ≤ daysInMonth (now.year + 1) 1 :=
      min_le_right _ _
    have hminB : 1 ≤ min rd (daysInMonth (now.year + 1) 1) :=
      le_min hrd1 (by omega)
    dsimp only
    have hval : ValidDate (now.year + 1) 1 (min rd (daysInMonth (now.year + 1) 1)) :=
      ⟨by norm_num, by norm_num, hminB, hminA⟩
    exact ⟨hval, toDays_lt ⟨hm1, hm2, hd1, hd2⟩ hval (Or.inl (by omega))⟩
  · have hm11 : now.month ≤ 11 := by
      rcases lt_or_eq_of_le hm2 with h | h
      · omega
      · exact absurd h hdec
    have hdim := daysInMonth_bound (y := now.year) (m := now.month + 1)
      (by omega) (by omega)
    have hminA : min rd (daysInMonth now.year (now.month + 1)) ≤
        daysInMonth now.year (now.month + 1) := min_le_right _ _
    have hminB : 1 ≤ min rd (daysInMonth now.year (now.month + 1)) :=
      le_min hrd1 (by omega)
    dsimp only
    have hval : ValidDate now.year (now.month + 1)
        (min rd (daysInMonth now.year (now.month + 1))) :=
      ⟨by omega, by omega, hminB, hminA⟩
    exact ⟨hval, toDays_lt ⟨hm1, hm2, hd1, hd2⟩ hval
      (Or.inr ⟨rfl, Or.inl (by omega)⟩)⟩
  · have hdim := daysInMonth_bound (y := now.year) (m := now.month) hm1 hm2
    have hminA : min rd (daysInMonth now.year now.month) ≤
        daysInMonth now.year now.month := min_le_right _ _
    have hminB : 1 ≤ min rd (daysInMonth now.year now.month) :=
      le_min hrd1 (by omega)
    dsimp only
    have hval : ValidDate now.year now.month
        (min rd (daysInMonth now.year now.month)) := ⟨hm1, hm2, hminB, hminA⟩
    exact ⟨hval, toDays_lt ⟨hm1, hm2, hd1, hd2⟩ hval
      (Or.inr ⟨rfl, Or.inr ⟨rfl, by omega⟩⟩)⟩

theorem nextResetMonth_gt {rds : Str} {now : DateTime} {ts : Int}
    (hv : ValidDateTime now) (h : nextResetMonth rds now = .ok ts) :
    dtTimestamp now < ts := by
  obtain ⟨hvd, hs1, hs2⟩ := hv
  unfold nextResetMonth at h
  split at h
  · exact absurd h (by simp)
  · next rd hp =>
    split at h
    · next hrange =>
      injection h with h
      subst h
      have hspec := @monthFinal_spec now (rd : Int) hvd
        (by exact_mod_cast hrange.1) (by exact_mod_cast hrange.2)
      unfold dtTimestamp dateTs
      omega
    · exact absurd h (by simp)

theorem nextResetYear_gt {rds : Str} {now : DateTime} {ts : Int}
    (hv : ValidDateTime now) (h : nextResetYear rds now = .ok ts) :
    dtTimestamp now < ts := by
  obtain ⟨hvd, hs1, hs2⟩ := hv
  unfold nextResetYear at h
  split at h
  · split at h
    · rename_i mo d hma hdb
      unfold yearFromParts at h
      split_ifs at h with hmo hd hbefore hnext
      · injection h with h
        subst h
        have hval : ValidDate now.year (mo : Int) (d : Int) :=
          ⟨by exact_mod_cast hmo.1, by exact_mod_cast hmo.2, hd.1, hd.2⟩
        have := toDays_lt hvd hval (Or.inr ⟨rfl, hbefore⟩)
        unfold dtTimestamp dateTs
        omega
      · injection h with h
        subst h
        have hval : ValidDate (now.year + 1) (mo : Int) (d : Int) :=
          ⟨by exact_mod_cast hmo.1, by exact_mod_cast hmo.2, hd.1, hnext⟩
        have := toDays_lt hvd hval (Or.inl (by omega))
        unfold dtTimestamp dateTs
        omega
    · exact absurd h (by simp)
  · exact absurd h (by simp)

/-- For every valid clock reading, a successful scheduler run returns an
instant strictly in the future. -/
theorem calcNextReset_gt_now {cfg : NetworkConfig} {now : DateTime} {ts : Int}
    (hv : ValidDateTime now) (h : calculate_next_reset_timestamp cfg now = .ok ts) :
    dtTimestamp now < ts := by
  unfold calculate_next_reset_timestamp at h
  split at h
  · exact nextResetWeek_gt hv h
  · exact nextResetMonth_gt hv h
  · exact nextResetYear_gt hv h

theorem applyKV_cases {st : DecState} {k v : Str} {st1 : DecState}
    (h : applyKV st k v = .ok st1) : DStep st st1 k v := by
  unfold applyKV at h
  unfold DStep
  by_cases h1 : k = kDisable
  · rw [if_pos h1] at h
    cases hb : rustParseBool v with
    | none => rw [hb] at h; exact absurd h (by simp)
    | some b =>
      rw [hb] at h
      injection h with h
      exact Or.inl ⟨h1, b, rfl, h.symm⟩
  rw [if_neg h1] at h
  by_cases h2 : k = kInterval
  · rw [if_pos h2] at h
    cases hb : rustParseU32 v with
    | none => rw [hb] at h; exact absurd h (by simp)
    | some n =>
      rw [hb] at h
      injection h with h
      exact Or.inr (Or.inl ⟨h2, n, rfl, h.symm⟩)
  rw [if_neg h2] at h
  by_cases h3 : k = kPath
  · rw [if_pos h3] at h
    injection h with h
    exact Or.inr (Or.inr (Or.inl ⟨h3, h.symm⟩))
  rw [if_neg h3] at h
  by_cases h4 : k = kPeriod
  · rw [if_pos h4] at h
    injection h with h
    exact Or.inr (Or.inr (Or.inr (Or.inl ⟨h4, h.symm⟩)))
  rw [if_neg h4] at h
  by_cases h5 : k = kResetDay
  · rw [if_pos h5] at h
    injection h with h
    exact Or.inr (Or.inr (Or.inr (Or.inr (Or.inl ⟨h5, h.symm⟩))))
  rw [if_neg h5] at h
  by_cases h6 : k = kBootId
  · rw [if_pos h6] at h
    injection h with h
    exact Or.inr (Or.inr (Or.inr (Or.inr (Or.inr (Or.inl ⟨h6, h.symm⟩)))))
  rw [if_neg h6] at h
  by_cases h7 : k = kCtx
  · rw [if_pos h7] at h
    cases hb : rustParseU64 v with
    | none => rw [hb] at h; exact absurd h (by simp)
    | some n =>
      rw [hb] at h
      injection h with h
      exact Or.inr (Or.inr (Or.inr (Or.inr (Or.inr (Or.inr (Or.inl ⟨h7, n, rfl, h.symm⟩))))))
  rw [if_neg h7] at h
  by_cases h8 : k = kCrx
  · rw [if_pos h8] at h
    cases hb : rustParseU64 v with
    | none => rw [hb] at h; exact absurd h (by simp)
    | some n =>
      rw [hb] at h
      injection h with h
      exact Or.inr (Or.inr (Or.inr (Or.inr (Or.inr (Or.inr (Or.inr
        (Or.inl ⟨h8, n, rfl, h.symm⟩)))))))
  rw [if_neg h8] at h
  by_cases h9 : k = kNrt
  · rw [if_pos h9] at h
    cases hb : rustParseI64 v with
    | none => rw [hb] at h; exact absurd h (by simp)
    | some z =>
      rw [hb] at h
      injection h with h
      exact Or.inr (Or.inr (Or.inr (Or.inr (Or.inr (Or.inr (Or.inr (Or.inr
        (Or.inl ⟨h9, z, rfl, h.symm⟩))))))))
  rw [if_neg h9] at h
  by_cases h10 : k = kOtx
  · rw [if_pos h10] at h
    cases hb : rustParseI64 v with
    | none => rw [hb] at h; exact absurd h (by simp)
    | some z =>
      rw [hb] at h
      injection h with h
      exact Or.inr (Or.inr (Or.inr (Or.inr (Or.inr (Or.inr (Or.inr (Or.inr (Or.inr
        (Or.inl ⟨h10, z, rfl, h.symm⟩)))))))))
  rw [if_neg h10] at h
  by_cases h11 : k = kOrx
  · rw [if_pos h11] at h
    cases hb : rustParseI64 v with
    | none => rw [hb] at h; exact absurd h (by simp)
    | some z =>
      rw [hb] at h
      injection h with h
      exact Or.inr (Or.inr (Or.inr (Or.inr (Or.inr (Or.inr (Or.inr (Or.inr (Or.inr
        (Or.inr (Or.inl ⟨h11, z, rfl, h.symm⟩))))))))))
  rw [if_neg h11] at h
  injection h with h
  exact Or.inr (Or.inr (Or.inr (Or.inr (Or.inr (Or.inr (Or.inr (Or.inr (Or.inr
    (Or.inr (Or.inr h.symm))))))))))

/-- A `DStep` whose key differs from every typed key leaves each projection
untouched; the per-field corollaries. -/
theorem DStep_disable {st st1 : DecState} {k v : Str} (hd : DStep st st1 k v)
    (hk : k ≠ kDisable) : st1.disable = st.disable := by
  rcases hd with ⟨hkey, _, _, rfl⟩ | ⟨_, _, _, rfl⟩ | ⟨_, rfl⟩ | ⟨_, rfl⟩ | ⟨_, rfl⟩ |
    ⟨_, rfl⟩ | ⟨_, _, _, rfl⟩ | ⟨_, _, _, rfl⟩ | ⟨_, _, _, rfl⟩ | ⟨_, _, _, rfl⟩ |
    ⟨_, _, _, rfl⟩ | rfl <;> first | rfl | exact absurd hkey hk

theorem DStep_interval {st st1 : DecState} {k v : Str} (hd : DStep st st1 k v)
    (hk : k ≠ kInterval) : st1.interval = st.interval := by
  rcases hd with ⟨_, _, _, rfl⟩ | ⟨hkey, _, _, rfl⟩ | ⟨_, rfl⟩ | ⟨_, rfl⟩ | ⟨_, rfl⟩ |
    ⟨_, rfl⟩ | ⟨_, _, _, rfl⟩ | ⟨_, _, _, rfl⟩ | ⟨_, _, _, rfl⟩ | ⟨_, _, _, rfl⟩ |
    ⟨_, _, _, rfl⟩ | rfl <;> first | rfl | exact absurd hkey hk

theorem DStep_path {st st1 : DecState} {k v : Str} (hd : DStep st st1 k v)
    (hk : k ≠ kPath) : st1.path = st.path := by
  rcases hd with ⟨_, _, _, rfl⟩ | ⟨_, _, _, rfl⟩ | ⟨hkey, rfl⟩ | ⟨_, rfl⟩ | ⟨_, rfl⟩ |
    ⟨_, rfl⟩ | ⟨_, _, _, rfl⟩ | ⟨_, _, _, rfl⟩ | ⟨_, _, _, rfl⟩ | ⟨_, _, _, rfl⟩ |
    ⟨_, _, _, rfl⟩ | rfl <;> first | rfl | exact absurd hkey hk

theorem DStep_bootId {st st1 : DecState} {k v : Str} (hd : DStep st st1 k v)
    (hk : k ≠ kBootId) : st1.bootId = st.bootId := by
  rcases hd with ⟨_, _, _, rfl⟩ | ⟨_, _, _, rfl⟩ | ⟨_, rfl⟩ | ⟨_, rfl⟩ | ⟨_, rfl⟩ |
    ⟨hkey, rfl⟩ | ⟨_, _, _, rfl⟩ | ⟨_, _, _, rfl⟩ | ⟨_, _, _, rfl⟩ | ⟨_, _, _, rfl⟩ |
    ⟨_, _, _, rfl⟩ | rfl <;> first | rfl | exact absurd hkey hk

theorem DStep_ctx {st st1 : DecState} {k v : Str} (hd : DStep st st1 k v)
    (hk : k ≠ kCtx) : st1.ctx = st.ctx := by
  rcases hd with ⟨_, _, _, rfl⟩ | ⟨_, _, _, rfl⟩ | ⟨_, rfl⟩ | ⟨_, rfl⟩ | ⟨_, rfl⟩ |
    ⟨_, rfl⟩ | ⟨hkey, _, _, rfl⟩ | ⟨_, _, _, rfl⟩ | ⟨_, _, _, rfl⟩ | ⟨_, _, _, rfl⟩ |
    ⟨_, _, _, rfl⟩ | rfl <;> first | rfl | exact absurd hkey hk

theorem DStep_crx {st st1 : DecState} {k v : Str} (hd : DStep st st1 k v)
    (hk : k ≠ kCrx) : st1.crx = st.crx := by
  rcases hd with ⟨_, _, _, rfl⟩ | ⟨_, _, _, rfl⟩ | ⟨_, rfl⟩ | ⟨_, rfl⟩ | ⟨_, rfl⟩ |
    ⟨_, rfl⟩ | ⟨_, _, _, rfl⟩ | ⟨hkey, _, _, rfl⟩ | ⟨_, _, _, rfl⟩ | ⟨_, _, _, rfl⟩ |
    ⟨_, _, _, rfl⟩ | rfl <;> first | rfl | exact absurd hkey hk

theorem DStep_nrt {st st1 : DecState} {k v : Str} (hd : DStep st st1 k v)
    (hk : k ≠ kNrt) : st1.nrt = st.nrt := by
  rcases hd with ⟨_, _, _, rfl⟩ | ⟨_, _, _, rfl⟩ | ⟨_, rfl⟩ | ⟨_, rfl⟩ | ⟨_, rfl⟩ |
    ⟨_, rfl⟩ | ⟨_, _, _, rfl⟩ | ⟨_, _, _, rfl⟩ | ⟨hkey, _, _, rfl⟩ | ⟨_, _, _, rfl⟩ |
    ⟨_, _, _, rfl⟩ | rfl <;> first | rfl | exact absurd hkey hk

theorem DStep_otx {st st1 : DecState} {k v : Str} (hd : DStep st st1 k v)
    (hk : k ≠ kOtx) : st1.otx = st.otx := by
  rcases hd with ⟨_, _, _, rfl⟩ | ⟨_, _, _, rfl⟩ | ⟨_, rfl⟩ | ⟨_, rfl⟩ | ⟨_, rfl⟩ |
    ⟨_, rfl⟩ | ⟨_, _, _, rfl⟩ | ⟨_, _, _, rfl⟩ | ⟨_, _, _, rfl⟩ | ⟨hkey, _, _, rfl⟩ |
    ⟨_, _, _, rfl⟩ | rfl <;> first | rfl | exact absurd hkey hk

theorem DStep_orx {st st1 : DecState} {k v : Str} (hd : DStep st st1 k v)
    (hk : k ≠ kOrx) : st1.orx = st.orx := by
  rcases hd with ⟨_, _, _, rfl⟩ | ⟨_, _, _, rfl⟩ | ⟨_, rfl⟩ | ⟨_, rfl⟩ | ⟨_, rfl⟩ |
    ⟨_, rfl⟩ | ⟨_, _, _, rfl⟩ | ⟨_, _, _, rfl⟩ | ⟨_, _, _, rfl⟩ | ⟨_, _, _, rfl⟩ |
    ⟨hkey, _, _, rfl⟩ | rfl <;> first | rfl | exact absurd hkey hk

theorem DStep_resetDay {st st1 : DecState} {k v : Str} (hd : DStep st st1 k v)
    (hk : k ≠ kResetDay) : st1.resetDay = st.resetDay := by
  rcases hd with ⟨_, _, _, rfl⟩ | ⟨_, _, _, rfl⟩ | ⟨_, rfl⟩ | ⟨_, rfl⟩ | ⟨hkey, rfl⟩ |
    ⟨_, rfl⟩ | ⟨_, _, _, rfl⟩ | ⟨_, _, _, rfl⟩ | ⟨_, _, _, rfl⟩ | ⟨_, _, _, rfl⟩ |
    ⟨_, _, _, rfl⟩ | rfl <;> first | rfl | exact absurd hkey hk

theorem DStep_period {st st1 : DecState} {k v : Str} (hd : DStep st st1 k v) :
    st1.period = st.period ∨ (k = kPeriod ∧ st1.period = parsePeriodVal v) := by
  rcases hd with ⟨_, _, _, rfl⟩ | ⟨_, _, _, rfl⟩ | ⟨_, rfl⟩ | ⟨hkey, rfl⟩ | ⟨_, rfl⟩ |
    ⟨_, rfl⟩ | ⟨_, _, _, rfl⟩ | ⟨_, _, _, rfl⟩ | ⟨_, _, _, rfl⟩ | ⟨_, _, _, rfl⟩ |
    ⟨_, _, _, rfl⟩ | rfl <;> first | exact Or.inl rfl | exact Or.inr ⟨hkey, rfl⟩

theorem processLine_DStep {st : DecState} {l : Str} {st1 : DecState}
    (h : processLine st l = .ok st1) :
    st1 = st ∨ ∃ k v, lineShape l = .kv k v ∧ DStep st st1 k v := by
  unfold processLine at h
  split at h
  · injection h with h
    exact Or.inl h.symm
  · exact absurd h (by simp)
  · next k v hkv => exact Or.inr ⟨k, v, hkv, applyKV_cases h⟩

/-- Generic lifting: a projection untouched by every line of the list is
preserved across the whole loop. -/
theorem processLines_preserve {α : Type} (f : DecState → α) (k : Str)
    (hstep : ∀ st st1 k0 v, DStep st st1 k0 v → k0 ≠ k → f st1 = f st) :
    ∀ ls st st', processLines st ls = .ok st' → (¬ hasKeyL ls k) → f st' = f st := by
  intro ls
  induction ls with
  | nil =>
    intro st st' h _
    unfold processLines at h
    injection h with h
    rw [h]
  | cons l rest ih =>
    intro st st' h hk
    unfold processLines at h
    split at h
    · exact absurd h (by simp)
    · next st1 heq =>
      have h2 : f st' = f st1 :=
        ih st1 st' h (fun ⟨l', hl', hv⟩ => hk ⟨l', List.mem_cons_of_mem _ hl', hv⟩)
      rcases processLine_DStep heq with rfl | ⟨k0, v, hkv, hd⟩
      · exact h2
      · have hne : k0 ≠ k := by
          rintro rfl
          exact hk ⟨l, List.mem_cons_self _ _, v, hkv⟩
        rw [h2, hstep st st1 k0 v hd hne]

/-- The final `traffic_period` slot is either untouched or the parse result of
some `traffic_period` line of the input. -/
theorem processLines_period :
    ∀ ls st st', processLines st ls = .ok st' →
      st'.period = st.period ∨
      ∃ l ∈ ls, ∃ v, lineShape l = .kv kPeriod v ∧ st'.period = parsePeriodVal v := by
  intro ls
  induction ls with
  | nil =>
    intro st st' h
    unfold processLines at h
    injection h with h
    rw [h]
    exact Or.inl rfl
  | cons l rest ih =>
    intro st st' h
    unfold processLines at h
    split at h
    · exact absurd h (by simp)
    · next st1 heq =>
      rcases ih st1 st' h with hsame | ⟨l', hl', v', hv', hres⟩
      · rcases processLine_DStep heq with rfl | ⟨k0, v, hkv, hd⟩
        · exact Or.inl hsame
        · rcases DStep_period hd with hp | ⟨rfl, hp⟩
          · exact Or.inl (hsame.trans hp)
          · exact Or.inr ⟨l, List.mem_cons_self _ _, v, hkv, hsame.trans hp⟩
      · exact Or.inr ⟨l', List.mem_cons_of_mem _ hl', v', hv', hres⟩

theorem applyKV_kDisable (st : DecState) (v : Str) :
    applyKV st kDisable v =
      (match rustParseBool v with
       | some b => .ok { st with disable := some b }
       | none => .error "Invalid bool for key") := by rfl

theorem applyKV_kInterval (st : DecState) (v : Str) :
    applyKV st kInterval v =
      (match rustParseU32 v with
       | some n => .ok { st with interval := some n }
       | none => .error "Invalid u32 for key") := by rfl

theorem applyKV_kPath (st : DecState) (v : Str) :
    applyKV st kPath v = .ok { st with path := some v } := by rfl

theorem applyKV_kPeriod (st : DecState) (v : Str) :
    applyKV st kPeriod v = .ok { st with period := parsePeriodVal v } := by rfl

theorem applyKV_kResetDay (st : DecState) (v : Str) :
    applyKV st kResetDay v = .ok { st with resetDay := some v } := by rfl

theorem applyKV_kBootId (st : DecState) (v : Str) :
    applyKV st kBootId v = .ok { st with bootId := some v } := by rfl

theorem applyKV_kCtx (st : DecState) (v : Str) :
    applyKV st kCtx v =
      (match rustParseU64 v with
       | some n => .ok { st with ctx := some n }
       | none => .error "Invalid u64 for key") := by rfl

theorem applyKV_kCrx (st : DecState) (v : Str) :
    applyKV st kCrx v =
      (match rustParseU64 v with
       | some n => .ok { st with crx := some n }
       | none => .error "Invalid u64 for key") := by rfl

theorem applyKV_kNrt (st : DecState) (v : Str) :
    applyKV st kNrt v =
      (match rustParseI64 v with
       | some z => .ok { st with nrt := some z }
       | none => .error "Invalid i64 for key") := by rfl

theorem applyKV_kOtx (st : DecState) (v : Str) :
    applyKV st kOtx v =
      (match rustParseI64 v with
       | some z => .ok { st with otx := z }
       | none => .error "Invalid i64 for key") := by rfl

theorem applyKV_kOrx (st : DecState) (v : Str) :
    applyKV st kOrx v =
      (match rustParseI64 v with
       | some z => .ok { st with orx := z }
       | none => .error "Invalid i64 for key") := by rfl

theorem processLine_error_of_bad {st : DecState} {l : Str} (hb : BadValueLine l) :
    ∃ e, processLine st l = .error e := by
  obtain ⟨k, v, hkv, hcase⟩ := hb
  have hred : processLine st l = applyKV st k v := by
    unfold processLine
    rw [hkv]
  rw [hred]
  rcases hcase with ⟨rfl, hp⟩ | ⟨rfl, hp⟩ | ⟨rfl, hp⟩ | ⟨rfl, hp⟩ | ⟨rfl, hp⟩ |
    ⟨rfl, hp⟩ | ⟨rfl, hp⟩
  · exact ⟨_, by rw [applyKV_kDisable, hp]⟩
  · exact ⟨_, by rw [applyKV_kInterval, hp]⟩
  · exact ⟨_, by rw [applyKV_kCtx, hp]⟩
  · exact ⟨_, by rw [applyKV_kCrx, hp]⟩
  · exact ⟨_, by rw [applyKV_kNrt, hp]⟩
  · exact ⟨_, by rw [applyKV_kOtx, hp]⟩
  · exact ⟨_, by rw [applyKV_kOrx, hp]⟩

theorem processLines_error_of_bad :
    ∀ ls (st : DecState), (∃ l ∈ ls, BadValueLine l) →
      ∃ e, processLines st ls = .error e := by
  intro ls
  induction ls with
  | nil =>
    intro st h
    obtain ⟨l, hl, _⟩ := h
    exact absurd hl (by simp)
  | cons l rest ih =>
    intro st h
    obtain ⟨l', hl', hb⟩ := h
    rcases List.mem_cons.mp hl' with rfl | hmem
    · obtain ⟨e, he⟩ := @processLine_error_of_bad st l' hb
      exact ⟨e, by unfold processLines; rw [he]⟩
    · cases hpl : processLine st l with
      | error e => exact ⟨e, by unfold processLines; rw [hpl]⟩
      | ok st1 =>
        obtain ⟨e, he⟩ := ih st1 ⟨_, hmem, hb⟩
        exact ⟨e, by unfold processLines; rw [hpl]; exact he⟩

/-- Successful assembly forces every required slot to be filled, and fixes the
record's fields in terms of the loop state. -/
theorem assembleInfo_ok {st : DecState} {r : NetworkInfo}
    (h : assembleInfo st = .ok r) :
    st.disable = some r.config.disable_network_statistics ∧
    st.interval = some r.config.network_interval ∧
    st.path = some r.config.network_save_path ∧
    st.bootId = some r.boot_id ∧
    st.ctx = some r.cycle_total_tx ∧
    st.crx = some r.cycle_total_rx ∧
    st.nrt = some r.next_reset_timestamp ∧
    st.period.getD .Month = r.config.traffic_period ∧
    st.resetDay.getD (strL "1") = r.config.traffic_reset_day ∧
    st.otx = r.offset_tx ∧
    st.orx = r.offset_rx := by
  unfold assembleInfo at h
  cases hd : st.disable with
  | none => rw [hd] at h; exact absurd h (by simp)
  | some d =>
  rw [hd] at h
  cases hiv : st.interval with
  | none => rw [hiv] at h; exact absurd h (by simp)
  | some iv =>
  rw [hiv] at h
  cases hp : st.path with
  | none => rw [hp] at h; exact absurd h (by simp)
  | some p =>
  rw [hp] at h
  cases hb : st.bootId with
  | none => rw [hb] at h; exact absurd h (by simp)
  | some b =>
  rw [hb] at h
  cases hctx : st.ctx with
  | none => rw [hctx] at h; exact absurd h (by simp)
  | some ctx =>
  rw [hctx] at h
  cases hcrx : st.crx with
  | none => rw [hcrx] at h; exact absurd h (by simp)
  | some crx =>
  rw [hcrx] at h
  cases hnrt : st.nrt with
  | none => rw [hnrt] at h; exact absurd h (by simp)
  | some nrt =>
  rw [hnrt] at h
  injection h with h
  subst h
  exact ⟨rfl, rfl, rfl, rfl, rfl, rfl, rfl, rfl, rfl, rfl, rfl⟩

/-- Inversion of a successful decode: the loop succeeded and assembly fixes
the record's fields. -/
theorem decode_ok_inv {s : Str} {r : NetworkInfo}
    (h : NetworkInfo.decode s = .ok r) :
    ∃ st, processLines {} (linesOf s) = .ok st ∧ assembleInfo st = .ok r := by
  unfold NetworkInfo.decode at h
  split at h
  · exact absurd h (by simp)
  · next st heq => exact ⟨st, heq, h⟩

/-! ### Split and trim lemmas for the round-trip proof -/
theorem splitOnChar_ne_nil (sep : Char) (l : Str) : splitOnChar sep l ≠ [] := by
  induction l with
  | nil => simp [splitOnChar]
  | cons c cs ih =>
    unfold splitOnChar
    split
    · split <;> simp
    · split <;> simp

theorem splitOnChar_cons (sep c : Char) (cs : Str) :
    splitOnChar sep (c :: cs) =
      match splitOnChar sep cs with
      | [] => if c = sep then [[], []] else [[c]]
      | h :: t => if c = sep then [] :: h :: t else (c :: h) :: t := rfl

theorem splitOnChar_append {sep : Char} {l : Str} (h : sep ∉ l) (rest : Str) :
    splitOnChar sep (l ++ sep :: rest) = l :: splitOnChar sep rest := by
  induction l with
  | nil =>
    cases hs : splitOnChar sep rest with
    | nil => exact absurd hs (splitOnChar_ne_nil sep rest)
    | cons x xs =>
      rw [List.nil_append, splitOnChar_cons, hs]
      simp
  | cons c cs ih =>
    have hc : c ≠ sep := fun hcon => h (hcon ▸ List.mem_cons_self c cs)
    have hcs : sep ∉ cs := fun hcon => h (List.mem_cons_of_mem c hcon)
    rw [List.cons_append, splitOnChar_cons, ih hcs]
    simp [hc]

theorem splitOnceChar_cons (sep c : Char) (cs : Str) :
    splitOnceChar sep (c :: cs) =
      if c = sep then some ([], cs)
      else (splitOnceChar sep cs).map (fun p => (c :: p.1, p.2)) := rfl

theorem splitOnceChar_append {sep : Char} {k : Str} (h : sep ∉ k) (v : Str) :
    splitOnceChar sep (k ++ sep :: v) = some (k, v) := by
  induction k with
  | nil =>
    rw [List.nil_append, splitOnceChar_cons, if_pos rfl]
  | cons c cs ih =>
    have hc : c ≠ sep := fun hcon => h (hcon ▸ List.mem_cons_self c cs)
    have hcs : sep ∉ cs := fun hcon => h (List.mem_cons_of_mem c hcon)
    rw [List.cons_append, splitOnceChar_cons, if_neg hc, ih hcs]
    rfl

theorem head_not_WS_of_dropWhile_eq {l : Str} (hd : l.dropWhile isWS = l) {c : Char}
    (hc : l.head? = some c) : isWS c = false := by
  cases l with
  | nil => simp at hc
  | cons x xs =>
    simp only [List.head?_cons, Option.some.injEq] at hc
    subst hc
    by_contra hws
    simp only [Bool.not_eq_false] at hws
    rw [List.dropWhile_cons_of_pos hws] at hd
    have hlen := congrArg List.length hd
    simp only [List.length_cons] at hlen
    have hle : (xs.dropWhile isWS).length ≤ xs.length :=
      (List.dropWhile_suffix isWS).length_le
    omega

theorem getLast_not_WS_of_trim {l : Str} (h : trimChars l = l) {c : Char}
    (hc : l.getLast? = some c) : isWS c = false := by
  have hr := trim_reverse_drop h
  exact head_not_WS_of_dropWhile_eq hr (by rw [List.head?_reverse]; exact hc)

theorem trim_eq_self_of_ends {l : Str}
    (hh : ∀ c, l.head? = some c → isWS c = false)
    (hl : ∀ c, l.getLast? = some c → isWS c = false) : trimChars l = l := by
  have h1 : l.dropWhile isWS = l := by
    cases l with
    | nil => rfl
    | cons x xs =>
      have hx : isWS x = false := hh x rfl
      rw [List.dropWhile_cons_of_neg (by rw [hx]; exact Bool.false_ne_true)]
  have h2 : l.reverse.dropWhile isWS = l.reverse := by
    cases hr : l.reverse with
    | nil => rfl
    | cons x xs =>
      have hx : l.getLast? = some x := by
        rw [← List.head?_reverse, hr]
        rfl
      have hws := hl x hx
      rw [List.dropWhile_cons_of_neg (by rw [hws]; exact Bool.false_ne_true)]
  unfold trimChars
  rw [h1, h2, List.reverse_reverse]

theorem isDigitC_not_WS {c : Char} (h : isDigitC c = true) : isWS c = false := by
  unfold isDigitC at h
  unfold isWS
  simp only [decide_eq_true_eq] at h
  simp only [decide_eq_false_iff_not]
  omega

theorem isDigitC_ne_nl {c : Char} (h : isDigitC c = true) : c ≠ '\n' := by
  rintro rfl
  simp [isDigitC] at h

theorem isDigitC_ne_eq {c : Char} (h : isDigitC c = true) : c ≠ '=' := by
  rintro rfl
  simp [isDigitC] at h

theorem mem_intDigits {z : Int} {c : Char} (h : c ∈ intDigits z) :
    c = '-' ∨ isDigitC c = true := by
  unfold intDigits at h
  split at h
  · rcases List.mem_cons.mp h with rfl | h
    · exact Or.inl rfl
    · exact Or.inr (mem_natDigits_isDigit h)
  · exact Or.inr (mem_natDigits_isDigit h)

theorem intDigits_char_not_WS {z : Int} {c : Char} (h : c ∈ intDigits z) :
    isWS c = false := by
  rcases mem_intDigits h with rfl | h
  · decide
  · exact isDigitC_not_WS h

theorem intDigits_char_ne_nl {z : Int} {c : Char} (h : c ∈ intDigits z) : c ≠ '\n' := by
  rcases mem_intDigits h with rfl | h
  · decide
  · exact isDigitC_ne_nl h

theorem natDigits_char_not_WS {n : Nat} {c : Char} (h : c ∈ natDigits n) :
    isWS c = false := isDigitC_not_WS (mem_natDigits_isDigit h)

theorem natDigits_char_ne_nl {n : Nat} {c : Char} (h : c ∈ natDigits n) : c ≠ '\n' :=
  isDigitC_ne_nl (mem_natDigits_isDigit h)

theorem trim_of_all_not_WS {l : Str} (h : ∀ c ∈ l, isWS c = false) :
    trimChars l = l := by
  refine trim_eq_self_of_ends (fun c hc => ?_) (fun c hc => ?_)
  · exact h c (by cases l with
      | nil => simp at hc
      | cons x xs =>
        simp only [List.head?_cons, Option.some.injEq] at hc
        exact hc ▸ List.mem_cons_self x xs)
  · exact h c (by
      have := List.mem_of_mem_getLast? (l := l) (a := c) ?_
      · exact this
      · exact hc)

theorem trim_natDigits (n : Nat) : trimChars (natDigits n) = natDigits n :=
  trim_of_all_not_WS (fun _ hc => natDigits_char_not_WS hc)

theorem trim_intDigits (z : Int) : trimChars (intDigits z) = intDigits z :=
  trim_of_all_not_WS (fun _ hc => intDigits_char_not_WS hc)

theorem trim_boolChars (b : Bool) : trimChars (boolChars b) = boolChars b := by
  cases b <;> decide

theorem trim_periodChars (p : TrafficPeriod) :
    trimChars (periodChars p) = periodChars p := by
  cases p <;> decide

theorem parsePeriodVal_periodChars (p : TrafficPeriod) :
    parsePeriodVal (periodChars p) = some p := by
  cases p <;> decide

/-- A `key=value` line whose pieces are already trimmed and whose key is a
plain nonempty key classifies as that key-value pair. -/
theorem lineShape_keyval {k v : Str} (hk : k ≠ [])
    (hkh : ∀ c, k.head? = some c → isWS c = false ∧ c ≠ '#')
    (hke : '=' ∉ k) (hkt : trimChars k = k) (hvt : trimChars v = v) :
    lineShape (k ++ '=' :: v) = .kv k v := by
  have hhead : ∀ c, (k ++ '=' :: v).head? = some c →
      isWS c = false ∧ c ≠ '#' := by
    intro c hc
    cases k with
    | nil => exact absurd rfl hk
    | cons x xs =>
      simp only [List.cons_append, List.head?_cons, Option.some.injEq] at hc
      exact hc ▸ hkh x rfl
  have hline : trimChars (k ++ '=' :: v) = k ++ '=' :: v := by
    refine trim_eq_self_of_ends (fun c hc => (hhead c hc).1) ?_
    intro c hc
    rw [List.getLast?_append_cons] at hc
    cases v with
    | nil =>
      simp only [List.getLast?_singleton, Option.some.injEq] at hc
      subst hc
      decide
    | cons y ys =>
      rw [List.getLast?_cons_cons] at hc
      exact getLast_not_WS_of_trim hvt hc
  have hne : k ++ '=' :: v ≠ [] := by
    cases k <;> simp
  have hnh : ¬ ((k ++ '=' :: v).head? = some '#') := fun hc => (hhead '#' hc).2 rfl
  unfold lineShape
  rw [hline, if_neg hne, if_neg hnh, splitOnceChar_append hke]
  show LineShape.kv (trimChars k) (trimChars v) = .kv k v
  rw [hkt, hvt]

theorem processLine_of_kv {st : DecState} {l k v : Str}
    (h : lineShape l = .kv k v) : processLine st l = applyKV st k v := by
  unfold processLine
  rw [h]

theorem processLines_cons (st : DecState) (l : Str) (ls : List Str) :
    processLines st (l :: ls) =
      match processLine st l with
      | .error e => .error e
      | .ok st1 => processLines st1 ls := rfl

theorem processLines_cons_ok {st st1 : DecState} {l : Str} {ls : List Str}
    (h : processLine st l = .ok st1) :
    processLines st (l :: ls) = processLines st1 ls := by
  rw [processLines_cons, h]

theorem noNL_line {k v : Str} (hk : '\n' ∉ k) (hv : '\n' ∉ v) :
    '\n' ∉ (k ++ '=' :: v) := by
  intro h
  rcases List.mem_append.mp h with h | h
  · exact hk h
  · rcases List.mem_cons.mp h with h | h
    · exact absurd h (by decide)
    · exact hv h

theorem noNL_boolChars (b : Bool) : '\n' ∉ boolChars b := by
  cases b <;> decide

theorem noNL_periodChars (p : TrafficPeriod) : '\n' ∉ periodChars p := by
  cases p <;> decide

theorem noNL_natDigits (n : Nat) : '\n' ∉ natDigits n :=
  fun h => natDigits_char_ne_nl h rfl

theorem noNL_intDigits (z : Int) : '\n' ∉ intDigits z :=
  fun h => intDigits_char_ne_nl h rfl

theorem keyHead_ok {k : Str} {x : Char} (hx : k.head? = some x)
    (h1 : isWS x = false) (h2 : x ≠ '#') :
    ∀ c, k.head? = some c → isWS c = false ∧ c ≠ '#' := by
  intro c hc
  rw [hx] at hc
  injection hc with hc
  subst hc
  exact ⟨h1, h2⟩

theorem encodeLine_append (k v t : Str) :
    encodeLine k v ++ t = (k ++ '=' :: v) ++ '\n' :: t := by
  simp [encodeLine]

theorem encodeLine_single (k v : Str) :
    encodeLine k v = (k ++ '=' :: v) ++ '\n' :: [] := by
  simp [encodeLine]

theorem processLine_nil (st : DecState) : processLine st [] = .ok st := rfl

/-- Round trip: decoding an encoded syntactically valid record restores it. -/
theorem decode_encode_roundtrip (r : NetworkInfo) (h : ValidRecord r) :
    NetworkInfo.decode (NetworkInfo.encode r) = .ok r := by
  obtain ⟨⟨hpt, hpn⟩, ⟨hrt, hrn⟩, ⟨hbt, hbn⟩, hiv, hctx, hcrx,
    hn1, hn2, ho1, ho2, ho3, ho4⟩ := h
  have nl1 : '\n' ∉ (kDisable ++ '=' :: boolChars r.config.disable_network_statistics) :=
    noNL_line (by decide) (noNL_boolChars _)
  have nl2 : '\n' ∉ (kInterval ++ '=' :: natDigits r.config.network_interval) :=
    noNL_line (by decide) (noNL_natDigits _)
  have nl3 : '\n' ∉ (kPath ++ '=' :: r.config.network_save_path) :=
    noNL_line (by decide) hpn
  have nl4 : '\n' ∉ (kPeriod ++ '=' :: periodChars r.config.traffic_period) :=
    noNL_line (by decide) (noNL_periodChars _)
  have nl5 : '\n' ∉ (kResetDay ++ '=' :: r.config.traffic_reset_day) :=
    noNL_line (by decide) hrn
  have nl6 : '\n' ∉ (kBootId ++ '=' :: r.boot_id) :=
    noNL_line (by decide) hbn
  have nl7 : '\n' ∉ (kCtx ++ '=' :: natDigits r.cycle_total_tx) :=
    noNL_line (by decide) (noNL_natDigits _)
  have nl8 : '\n' ∉ (kCrx ++ '=' :: natDigits r.cycle_total_rx) :=
    noNL_line (by decide) (noNL_natDigits _)
  have nl9 : '\n' ∉ (kNrt ++ '=' :: intDigits r.next_reset_timestamp) :=
    noNL_line (by decide) (noNL_intDigits _)
  have nl10 : '\n' ∉ (kOtx ++ '=' :: intDigits r.offset_tx) :=
    noNL_line (by decide) (noNL_intDigits _)
  have nl11 : '\n' ∉ (kOrx ++ '=' :: intDigits r.offset_rx) :=
    noNL_line (by decide) (noNL_intDigits _)
  have hlines : linesOf (NetworkInfo.encode r) =
      [kDisable ++ '=' :: boolChars r.config.disable_network_statistics,
       kInterval ++ '=' :: natDigits r.config.network_interval,
       kPath ++ '=' :: r.config.network_save_path,
       kPeriod ++ '=' :: periodChars r.config.traffic_period,
       kResetDay ++ '=' :: r.config.traffic_reset_day,
       kBootId ++ '=' :: r.boot_id,
       kCtx ++ '=' :: natDigits r.cycle_total_tx,
       kCrx ++ '=' :: natDigits r.cycle_total_rx,
       kNrt ++ '=' :: intDigits r.next_reset_timestamp,
       kOtx ++ '=' :: intDigits r.offset_tx,
       kOrx ++ '=' :: intDigits r.offset_rx,
       []] := by
    unfold NetworkInfo.encode linesOf
    simp only [List.append_assoc]
    rw [encodeLine_append, splitOnChar_append nl1,
        encodeLine_append, splitOnChar_append nl2,
        encodeLine_append, splitOnChar_append nl3,
        encodeLine_append, splitOnChar_append nl4,
        encodeLine_append, splitOnChar_append nl5,
        encodeLine_append, splitOnChar_append nl6,
        encodeLine_append, splitOnChar_append nl7,
        encodeLine_append, splitOnChar_append nl8,
        encodeLine_append, splitOnChar_append nl9,
        encodeLine_append, splitOnChar_append nl10,
        encodeLine_single, splitOnChar_append nl11]
    rfl
  have hp1 : processLine ({} : DecState)
      (kDisable ++ '=' :: boolChars r.config.disable_network_statistics) =
      .ok { disable := some r.config.disable_network_statistics } := by
    rw [processLine_of_kv (lineShape_keyval (by decide)
      (keyHead_ok (show List.head? kDisable = some 'd' from rfl) (by decide) (by decide)) (by decide) (by decide)
      (trim_boolChars _)), applyKV_kDisable, rustParseBool_boolChars]
  have hp2 : processLine
      ({ disable := some r.config.disable_network_statistics } : DecState)
      (kInterval ++ '=' :: natDigits r.config.network_interval) =
      .ok { disable := some r.config.disable_network_statistics,
            interval := some r.config.network_interval } := by
    rw [processLine_of_kv (lineShape_keyval (by decide)
      (keyHead_ok (show List.head? kInterval = some 'n' from rfl) (by decide) (by decide)) (by decide) (by decide)
      (trim_natDigits _)), applyKV_kInterval, rustParseU32_natDigits hiv]
  have hp3 : processLine
      ({ disable := some r.config.disable_network_statistics,
         interval := some r.config.network_interval } : DecState)
      (kPath ++ '=' :: r.config.network_save_path) =
      .ok { disable := some r.config.disable_network_statistics,
            interval := some r.config.network_interval,
            path := some r.config.network_save_path } := by
    rw [processLine_of_kv (lineShape_keyval (by decide)
      (keyHead_ok (show List.head? kPath = some 'n' from rfl) (by decide) (by decide)) (by decide) (by decide)
      hpt), applyKV_kPath]
  have hp4 : processLine
      ({ disable := some r.config.disable_network_statistics,
         interval := some r.config.network_interval,
         path := some r.config.network_save_path } : DecState)
      (kPeriod ++ '=' :: periodChars r.config.traffic_period) =
      .ok { disable := some r.config.disable_network_statistics,
            interval := some r.config.network_interval,
            path := some r.config.network_save_path,
            period := some r.config.traffic_period } := by
    rw [processLine_of_kv (lineShape_keyval (by decide)
      (keyHead_ok (show List.head? kPeriod = some 't' from rfl) (by decide) (by decide)) (by decide) (by decide)
      (trim_periodChars _)), applyKV_kPeriod, parsePeriodVal_periodChars]
  have hp5 : processLine
      ({ disable := some r.config.disable_network_statistics,
         interval := some r.config.network_interval,
         path := some r.config.network_save_path,
         period := some r.config.traffic_period } : DecState)
      (kResetDay ++ '=' :: r.config.traffic_reset_day) =
      .ok { disable := some r.config.disable_network_statistics,
            interval := some r.config.network_interval,
            path := some r.config.network_save_path,
            period := some r.config.traffic_period,
            resetDay := some r.config.traffic_reset_day } := by
    rw [processLine_of_kv (lineShape_keyval (by decide)
      (keyHead_ok (show List.head? kResetDay = some 't' from rfl) (by decide) (by decide)) (by decide) (by decide)
      hrt), applyKV_kResetDay]
  have hp6 : processLine
      ({ disable := some r.config.disable_network_statistics,
         interval := some r.config.network_interval,
         path := some r.config.network_save_path,
         period := some r.config.traffic_period,
         resetDay := some r.config.traffic_reset_day } : DecState)
      (kBootId ++ '=' :: r.boot_id) =
      .ok { disable := some r.config.disable_network_statistics,
            interval := some r.config.network_interval,
            path := some r.config.network_save_path,
            period := some r.config.traffic_period,
            resetDay := some r.config.traffic_reset_day,
            bootId := some r.boot_id } := by
    rw [processLine_of_kv (lineShape_keyval (by decide)
      (keyHead_ok (show List.head? kBootId = some 'b' from rfl) (by decide) (by decide)) (by decide) (by decide)
      hbt), applyKV_kBootId]
  have hp7 : processLine
      ({ disable := some r.config.disable_network_statistics,
         interval := some r.config.network_interval,
         path := some r.config.network_save_path,
         period := some r.config.traffic_period,
         resetDay := some r.config.traffic_reset_day,
         bootId := some r.boot_id } : DecState)
      (kCtx ++ '=' :: natDigits r.cycle_total_tx) =
      .ok { disable := some r.config.disable_network_statistics,
            interval := some r.config.network_interval,
            path := some r.config.network_save_path,
            period := some r.config.traffic_period,
            resetDay := some r.config.traffic_reset_day,
            bootId := some r.boot_id,
            ctx := some r.cycle_total_tx } := by
    rw [processLine_of_kv (lineShape_keyval (by decide)
      (keyHead_ok (show List.head? kCtx = some 'c' from rfl) (by decide) (by decide)) (by decide) (by decide)
      (trim_natDigits _)), applyKV_kCtx, rustParseU64_natDigits hctx]
  have hp8 : processLine
      ({ disable := some r.config.disable_network_statistics,
         interval := some r.config.network_interval,
         path := some r.config.network_save_path,
         period := some r.config.traffic_period,
         resetDay := some r.config.traffic_reset_day,
         bootId := some r.boot_id,
         ctx := some r.cycle_total_tx } : DecState)
      (kCrx ++ '=' :: natDigits r.cycle_total_rx) =
      .ok { disable := some r.config.disable_network_statistics,
            interval := some r.config.network_interval,
            path := some r.config.network_save_path,
            period := some r.config.traffic_period,
            resetDay := some r.config.traffic_reset_day,
            bootId := some r.boot_id,
            ctx := some r.cycle_total_tx,
            crx := some r.cycle_total_rx } := by
    rw [processLine_of_kv (lineShape_keyval (by decide)
      (keyHead_ok (show List.head? kCrx = some 'c' from rfl) (by decide) (by decide)) (by decide) (by decide)
      (trim_natDigits _)), applyKV_kCrx, rustParseU64_natDigits hcrx]
  have hp9 : processLine
      ({ disable := some r.config.disable_network_statistics,
         interval := some r.config.network_interval,
         path := some r.config.network_save_path,
         period := some r.config.traffic_period,
         resetDay := some r.config.traffic_reset_day,
         bootId := some r.boot_id,
         ctx := some r.cycle_total_tx,
         crx := some r.cycle_total_rx } : DecState)
      (kNrt ++ '=' :: intDigits r.next_reset_timestamp) =
      .ok { disable := some r.config.disable_network_statistics,
            interval := some r.config.network_interval,
            path := some r.config.network_save_path,
            period := some r.config.traffic_period,
            resetDay := some r.config.traffic_reset_day,
            bootId := some r.boot_id,
            ctx := some r.cycle_total_tx,
            crx := some r.cycle_total_rx,
            nrt := some r.next_reset_timestamp } := by
    rw [processLine_of_kv (lineShape_keyval (by decide)
      (keyHead_ok (show List.head? kNrt = some 'n' from rfl) (by decide) (by decide)) (by decide) (by decide)
      (trim_intDigits _)), applyKV_kNrt, rustParseI64_intDigits hn1 hn2]
  have hp10 : processLine
      ({ disable := some r.config.disable_network_statistics,
         interval := some r.config.network_interval,
         path := some r.config.network_save_path,
         period := some r.config.traffic_period,
         resetDay := some r.config.traffic_reset_day,
         bootId := some r.boot_id,
         ctx := some r.cycle_total_tx,
         crx := some r.cycle_total_rx,
         nrt := some r.next_reset_timestamp } : DecState)
      (kOtx ++ '=' :: intDigits r.offset_tx) =
      .ok { disable := some r.config.disable_network_statistics,
            interval := some r.config.network_interval,
            path := some r.config.network_save_path,
            period := some r.config.traffic_period,
            resetDay := some r.config.traffic_reset_day,
            bootId := some r.boot_id,
            ctx := some r.cycle_total_tx,
            crx := some r.cycle_total_rx,
            nrt := some r.next_reset_timestamp,
            otx := r.offset_tx } := by
    rw [processLine_of_kv (lineShape_keyval (by decide)
      (keyHead_ok (show List.head? kOtx = some 'o' from rfl) (by decide) (by decide)) (by decide) (by decide)
      (trim_intDigits _)), applyKV_kOtx, rustParseI64_intDigits ho1 ho2]
  have hp11 : processLine
      ({ disable := some r.config.disable_network_statistics,
         interval := some r.config.network_interval,
         path := some r.config.network_save_path,
         period := some r.config.traffic_period,
         resetDay := some r.config.traffic_reset_day,
         bootId := some r.boot_id,
         ctx := some r.cycle_total_tx,
         crx := some r.cycle_total_rx,
         nrt := some r.next_reset_timestamp,
         otx := r.offset_tx } : DecState)
      (kOrx ++ '=' :: intDigits r.offset_rx) =
      .ok { disable := some r.config.disable_network_statistics,
            interval := some r.config.network_interval,
            path := some r.config.network_save_path,
            period := some r.config.traffic_period,
            resetDay := some r.config.traffic_reset_day,
            bootId := some r.boot_id,
            ctx := some r.cycle_total_tx,
            crx := some r.cycle_total_rx,
            nrt := some r.next_reset_timestamp,
            otx := r.offset_tx,
            orx := r.offset_rx } := by
    rw [processLine_of_kv (lineShape_keyval (by decide)
      (keyHead_ok (show List.head? kOrx = some 'o' from rfl) (by decide) (by decide)) (by decide) (by decide)
      (trim_intDigits _)), applyKV_kOrx, rustParseI64_intDigits ho3 ho4]
  unfold NetworkInfo.decode
  rw [hlines, processLines_cons_ok hp1, processLines_cons_ok hp2,
      processLines_cons_ok hp3, processLines_cons_ok hp4, processLines_cons_ok hp5,
      processLines_cons_ok hp6, processLines_cons_ok hp7, processLines_cons_ok hp8,
      processLines_cons_ok hp9, processLines_cons_ok hp10, processLines_cons_ok hp11,
      processLines_cons_ok (processLine_nil _)]
  rfl

/-! ### State-recovery lemmas -/
theorem resolveOffsets_preserves (info : NetworkInfo) (rawTx rawRx : Nat) :
    (resolveOffsets info rawTx rawRx).cycle_total_tx = info.cycle_total_tx ∧
    (resolveOffsets info rawTx rawRx).cycle_total_rx = info.cycle_total_rx ∧
    (resolveOffsets info rawTx rawRx).next_reset_timestamp = info.next_reset_timestamp ∧
    (resolveOffsets info rawTx rawRx).config = info.config ∧
    (resolveOffsets info rawTx rawRx).boot_id = info.boot_id := by
  unfold resolveOffsets
  split_ifs <;> exact ⟨rfl, rfl, rfl, rfl, rfl⟩

theorem applyReboot_preserves (newBootId : Str) (isLinux : Bool)
    (info : NetworkInfo) :
    (applyRebootAndStoreBootId newBootId isLinux info).cycle_total_tx =
      info.cycle_total_tx ∧
    (applyRebootAndStoreBootId newBootId isLinux info).cycle_total_rx =
      info.cycle_total_rx ∧
    (applyRebootAndStoreBootId newBootId isLinux info).next_reset_timestamp =
      info.next_reset_timestamp ∧
    (applyRebootAndStoreBootId newBootId isLinux info).config = info.config := by
  unfold applyRebootAndStoreBootId
  split_ifs <;> exact ⟨rfl, rfl, rfl, rfl⟩

/-- On a configuration change, recovery recomputes the schedule and replaces
the configuration but keeps the loaded cycle totals: the recomputed reset
instant is strictly in the future, so the rollover step cannot fire. -/
theorem initialize_config_change_helper {cfg : NetworkConfig} {rawData : Str}
    {now : DateTime} {newBootId : Str} {isLinux : Bool} {rawTx rawRx : Nat}
    {info0 r : NetworkInfo}
    (hv : ValidDateTime now)
    (hb : buildInitialRecord cfg rawData now newBootId = .ok info0)
    (hcfg : info0.config ≠ cfg)
    (hr : initialize_network_state_and_offset cfg rawData now newBootId isLinux
            rawTx rawRx = .ok r) :
    r.cycle_total_tx = info0.cycle_total_tx ∧
    r.cycle_total_rx = info0.cycle_total_rx ∧
    r.config = cfg ∧
    calculate_next_reset_timestamp cfg now = .ok r.next_reset_timestamp := by
  unfold initialize_network_state_and_offset at hr
  rw [hb] at hr
  simp only [] at hr
  cases hcalc : calculate_next_reset_timestamp cfg now with
  | error e =>
    rw [show applyConfigChange cfg now info0 = .error e by
      unfold applyConfigChange
      rw [if_pos hcfg, hcalc]] at hr
    exact absurd hr (by simp)
  | ok nrt =>
    have hgt := calcNextReset_gt_now hv hcalc
    rw [show applyConfigChange cfg now info0 =
        .ok { info0 with next_reset_timestamp := nrt, config := cfg } by
      unfold applyConfigChange
      rw [if_pos hcfg, hcalc]] at hr
    simp only [] at hr
    rw [show applyCycleRollover cfg now
        { info0 with next_reset_timestamp := nrt, config := cfg } =
        .ok { info0 with next_reset_timestamp := nrt, config := cfg } by
      unfold applyCycleRollover
      rw [if_neg (by simp only []; omega)]] at hr
    simp only [] at hr
    injection hr with hr
    subst hr
    have h1 := resolveOffsets_preserves
      (applyRebootAndStoreBootId newBootId isLinux
        { info0 with next_reset_timestamp := nrt, config := cfg }) rawTx rawRx
    have h2 := applyReboot_preserves newBootId isLinux
      { info0 with next_reset_timestamp := nrt, config := cfg }
    refine ⟨?_, ?_, ?_, ?_⟩
    · rw [h1.1, h2.1]
    · rw [h1.2.1, h2.2.1]
    · rw [h1.2.2.2.1, h2.2.2.2]
    · rw [h1.2.2.1, h2.2.2.1]

theorem sampleStep_some {offTx offRx : Int} {info : NetworkInfo} {now : Int}
    {rawTx rawRx : Nat} {info2 : NetworkInfo}
    (h : sampleStep offTx offRx info now rawTx rawRx = some info2) :
    now < info.next_reset_timestamp ∧
    info2 = { info with
      cycle_total_tx := (max (wrap64 (i64cast rawTx + offTx)) 0).toNat,
      cycle_total_rx := (max (wrap64 (i64cast rawRx + offRx)) 0).toNat } := by
  unfold sampleStep at h
  split at h
  · exact absurd h (by simp)
  · next hge =>
    injection h with h
    exact ⟨by omega, h.symm⟩

theorem sampleStep_none_of_ge {offTx offRx : Int} {info : NetworkInfo} {now : Int}
    (rawTx rawRx : Nat) (h : info.next_reset_timestamp ≤ now) :
    sampleStep offTx offRx info now rawTx rawRx = none := by
  unfold sampleStep
  rw [if_pos (by omega)]

theorem sampleLoop_cons (offTx offRx : Int) (info : NetworkInfo) (now : Int)
    (rawTx rawRx : Nat) (rest : List (Int × Nat × Nat)) :
    sampleLoop offTx offRx info ((now, rawTx, rawRx) :: rest) =
      match sampleStep offTx offRx info now rawTx rawRx with
      | none => []
      | some info2 => (now, rawTx, rawRx, info2) :: sampleLoop offTx offRx info2 rest :=
  rfl

/-- Migration path of the record builder: a non-empty file that fails to
decode yields a fresh record seeded from the legacy totals, with a fresh
schedule and fresh-file sentinel offsets. -/
theorem buildInitialRecord_migration {cfg : NetworkConfig} {raw : Str}
    {now : DateTime} {bootId : Str} {rec : NetworkInfo} (hne : raw ≠ [])
    (hdec : ∃ e, NetworkInfo.decode raw = .error e)
    (hb : buildInitialRecord cfg raw now bootId = .ok rec) :
    rec.cycle_total_tx = ((parse_old_format_for_migration raw).getD (0, 0)).1 ∧
    rec.cycle_total_rx = ((parse_old_format_for_migration raw).getD (0, 0)).2 ∧
    rec.offset_tx = i64min + 2 ∧ rec.offset_rx = i64min + 2 ∧
    rec.config = cfg ∧ rec.boot_id = bootId ∧
    calculate_next_reset_timestamp cfg now = .ok rec.next_reset_timestamp := by
  obtain ⟨e, he⟩ := hdec
  unfold buildInitialRecord at hb
  rw [if_neg hne, he] at hb
  simp only [] at hb
  cases hcalc : calculate_next_reset_timestamp cfg now with
  | error e2 => rw [hcalc] at hb; exact absurd hb (by simp)
  | ok nrt =>
    rw [hcalc] at hb
    injection hb with hb
    subst hb
    exact ⟨rfl, rfl, rfl, rfl, rfl, rfl, rfl⟩

set_option maxRecDepth 4000 in
/-- Trace property of the sample loop: every persisted record is written
strictly before the reset instant, carries the claimed totals, and the loop
exits without writing at the first reading at or past the reset instant. -/
theorem sampleLoop_spec (offTx offRx : Int) :
    ∀ (samples : List (Int × Nat × Nat)) (info : NetworkInfo),
      (∀ s ∈ samples, ((s.2.1 : Int) < 2 ^ 63 ∧ (s.2.2 : Int) < 2 ^ 63 ∧
          -(2 ^ 63) ≤ (s.2.1 : Int) + offTx ∧ (s.2.1 : Int) + offTx < 2 ^ 63 ∧
          -(2 ^ 63) ≤ (s.2.2 : Int) + offRx ∧ (s.2.2 : Int) + offRx < 2 ^ 63)) →
      (∀ e ∈ sampleLoop offTx offRx info samples,
          e.1 < info.next_reset_timestamp ∧
          e.2.2.2.cycle_total_tx = (max ((e.2.1 : Int) + offTx) 0).toNat ∧
          e.2.2.2.cycle_total_rx = (max ((e.2.2.1 : Int) + offRx) 0).toNat ∧
          e.2.2.2.next_reset_timestamp = info.next_reset_timestamp) ∧
      (∀ now rtx rrx rest, samples = (now, rtx, rrx) :: rest →
          info.next_reset_timestamp ≤ now →
          sampleLoop offTx offRx info samples = []) := by
  intro samples
  induction samples with
  | nil =>
    intro info _
    constructor
    · intro e he
      exact absurd he (by simp [sampleLoop])
    · intro now rtx rrx rest heq
      exact absurd heq (by simp)
  | cons s rest ih =>
    intro info hbnd
    obtain ⟨now, rtx, rrx⟩ := s
    constructor
    · intro e he
      rw [sampleLoop_cons] at he
      cases hstep : sampleStep offTx offRx info now rtx rrx with
      | none =>
        rw [hstep] at he
        exact absurd he (by simp)
      | some info2 =>
        rw [hstep] at he
        obtain ⟨hlt, hinfo2⟩ := sampleStep_some hstep
        have hb := hbnd (now, rtx, rrx) (List.mem_cons_self _ _)
        have hctx : info2.cycle_total_tx = (max ((rtx : Int) + offTx) 0).toNat := by
          rw [hinfo2]
          dsimp only
          rw [i64cast_eq_self hb.1, wrap64_eq_self hb.2.2.1 hb.2.2.2.1]
        have hcrx : info2.cycle_total_rx = (max ((rrx : Int) + offRx) 0).toNat := by
          rw [hinfo2]
          dsimp only
          rw [i64cast_eq_self hb.2.1, wrap64_eq_self hb.2.2.2.2.1 hb.2.2.2.2.2]
        have hnrt : info2.next_reset_timestamp = info.next_reset_timestamp := by
          rw [hinfo2]
        rcases List.mem_cons.mp he with rfl | hmem
        · exact ⟨hlt, hctx, hcrx, hnrt⟩
        · have hrest := (ih info2
            (fun s hs => hbnd s (List.mem_cons_of_mem _ hs))).1 e hmem
          exact ⟨by rw [← hnrt]; exact hrest.1, hrest.2.1, hrest.2.2.1,
            by rw [← hnrt]; exact hrest.2.2.2⟩
    · intro now2 rtx2 rrx2 rest2 heq hge
      simp only [List.cons.injEq, Prod.mk.injEq] at heq
      obtain ⟨⟨hn, hx, hr⟩, hrest⟩ := heq
      subst hn
      rw [sampleLoop_cons, sampleStep_none_of_ge rtx rrx hge]

/-! ### Claim C5 -/
/-- C5: for every valid `(period, reset_spec, now)` input, the Calendar
Scheduler's result is strictly greater than `now`: when `now` lies exactly at
a valid reset instant, the returned instant is the next occurrence, never the
current one. -/
theorem C5_scheduler_forward (cfg : NetworkConfig) (now : DateTime) (ts : Int)
    (hv : ValidDateTime now)
    (h : calculate_next_reset_timestamp cfg now = .ok ts) :
    dtTimestamp now < ts :=
  calcNextReset_gt_now hv h

/-- Witness for C5 at a concrete input: Month mode, day 31, on
2024-02-15T00:00:00Z. -/
theorem C5_scheduler_forward_witness :
    ValidDateTime exNowFeb15 ∧
    calculate_next_reset_timestamp exCfgMonth31 exNowFeb15 = .ok 1709164800 ∧
    dtTimestamp exNowFeb15 < 1709164800 :=
  ⟨by decide, by decide,
   C5_scheduler_forward exCfgMonth31 exNowFeb15 1709164800 (by decide) (by decide)⟩

/-! ### Claim C6 -/
/-- C6: in Month mode with `reset_spec` "31", the scheduler called at
2024-02-15T00:00:00Z returns 2024-02-29T00:00:00Z (the target day clamped to
leap-February's length), and called at 2024-02-29 it advances to the next
month and re-clamps, returning 2024-03-31T00:00:00Z. -/
theorem C6_month_clamping :
    calculate_next_reset_timestamp exCfgMonth31 exNowFeb15 = .ok (dateTs 2024 2 29) ∧
    calculate_next_reset_timestamp exCfgMonth31 exNowFeb29 = .ok (dateTs 2024 3 31) ∧
    dateTs 2024 2 29 = 1709164800 ∧
    dateTs 2024 3 31 = 1711843200 :=
  ⟨by decide, by decide, by decide, by decide⟩

/-! ### Claim C7 -/
/-- Counterexample to C7 as stated: the spec "02/29" is valid for
`now = 2024-06-01` (February 2024 has 29 days and the parse succeeds), and
`now.date` is past the candidate, yet the scheduler returns an error instead
of 2025-02-29 — the year-rollover rebuild revalidates the date and fails for
February 29 of a non-leap year. -/
theorem C7_year_mode_cex :
    splitOnChar '/' exCfgYearFeb29.traffic_reset_day = [strL "02", strL "29"] ∧
    rustParseU8 (strL "02") = some 2 ∧
    rustParseU8 (strL "29") = some 29 ∧
    ((1 : Int) ≤ 29 ∧ (29 : Int) ≤ daysInMonth exNowJun1.year 2) ∧
    ¬(exNowJun1.month < 2 ∨ (exNowJun1.month = 2 ∧ exNowJun1.day < 29)) ∧
    (∃ e, calculate_next_reset_timestamp exCfgYearFeb29 exNowJun1 = .error e) :=
  ⟨by decide, by decide, by decide, by decide, by decide,
   "Invalid date for next year", by decide⟩

theorem nextResetYear_eq_pair {rds a b : Str} (now : DateTime)
    (h : splitOnChar '/' rds = [a, b]) :
    nextResetYear rds now =
      (match rustParseU8 a, rustParseU8 b with
       | some mo, some d => yearFromParts now mo d
       | _, _ => .error "Invalid month or day") := by
  unfold nextResetYear
  rw [h]

theorem nextResetYear_eq_parsed {rds a b : Str} {mo d : Nat} (now : DateTime)
    (hsp : splitOnChar '/' rds = [a, b])
    (hpa : rustParseU8 a = some mo) (hpb : rustParseU8 b = some d) :
    nextResetYear rds now = yearFromParts now mo d := by
  rw [nextResetYear_eq_pair now hsp, hpa, hpb]

/-- C7 (amended): in Year mode with `reset_spec` "MM/DD", the scheduler fails
on a malformed spec, an unparseable month or day, a month outside 1-12, or a
day exceeding the length of month MM in `now`'s year (no clamping); for a
valid spec it returns `date(now.year, MM, DD)` at midnight when `now.date` is
before that candidate, and otherwise the same date in year `now.year + 1`
when that date exists, failing (no clamping) when it does not — e.g. "02/29"
rolling into a non-leap year. -/
theorem C7_year_mode_schedule (cfg : NetworkConfig) (now : DateTime)
    (hper : cfg.traffic_period = .Year) :
    (∀ x y z t, splitOnChar '/' cfg.traffic_reset_day = x :: y :: z :: t →
      ∃ e, calculate_next_reset_timestamp cfg now = .error e) ∧
    (∀ x, splitOnChar '/' cfg.traffic_reset_day = [x] →
      ∃ e, calculate_next_reset_timestamp cfg now = .error e) ∧
    (∀ a b, splitOnChar '/' cfg.traffic_reset_day = [a, b] →
      rustParseU8 a = none ∨ rustParseU8 b = none →
      ∃ e, calculate_next_reset_timestamp cfg now = .error e) ∧
    (∀ a b mo d, splitOnChar '/' cfg.traffic_reset_day = [a, b] →
      rustParseU8 a = some mo → rustParseU8 b = some d →
      ¬(1 ≤ mo ∧ mo ≤ 12) →
      ∃ e, calculate_next_reset_timestamp cfg now = .error e) ∧
    (∀ a b mo d, splitOnChar '/' cfg.traffic_reset_day = [a, b] →
      rustParseU8 a = some mo → rustParseU8 b = some d →
      (1 ≤ mo ∧ mo ≤ 12) →
      ¬(1 ≤ (d : Int) ∧ (d : Int) ≤ daysInMonth now.year mo) →
      ∃ e, calculate_next_reset_timestamp cfg now = .error e) ∧
    (∀ a b mo d, splitOnChar '/' cfg.traffic_reset_day = [a, b] →
      rustParseU8 a = some mo → rustParseU8 b = some d →
      (1 ≤ mo ∧ mo ≤ 12) →
      (1 ≤ (d : Int) ∧ (d : Int) ≤ daysInMonth now.year mo) →
      (now.month < mo ∨ (now.month = mo ∧ now.day < d)) →
      calculate_next_reset_timestamp cfg now = .ok (dateTs now.year mo d)) ∧
    (∀ a b mo d, splitOnChar '/' cfg.traffic_reset_day = [a, b] →
      rustParseU8 a = some mo → rustParseU8 b = some d →
      (1 ≤ mo ∧ mo ≤ 12) →
      (1 ≤ (d : Int) ∧ (d : Int) ≤ daysInMonth now.year mo) →
      ¬(now.month < mo ∨ (now.month = mo ∧ now.day < d)) →
      ((d : Int) ≤ daysInMonth (now.year + 1) mo →
        calculate_next_reset_timestamp cfg now = .ok (dateTs (now.year + 1) mo d)) ∧
      (¬((d : Int) ≤ daysInMonth (now.year + 1) mo) →
        ∃ e, calculate_next_reset_timestamp cfg now = .error e)) := by
  have hcalc : calculate_next_reset_timestamp cfg now =
      nextResetYear cfg.traffic_reset_day now := by
    unfold calculate_next_reset_timestamp
    rw [hper]
  refine ⟨?_, ?_, ?_, ?_, ?_, ?_, ?_⟩
  · intro x y z t hsp
    rw [hcalc]
    unfold nextResetYear
    rw [hsp]
    cases z with
    | nil => exact ⟨_, rfl⟩
    | cons _ _ => exact ⟨_, rfl⟩
  · intro x hsp
    rw [hcalc]
    unfold nextResetYear
    rw [hsp]
    exact ⟨_, rfl⟩
  · intro a b hsp hnone
    rw [hcalc, nextResetYear_eq_pair now hsp]
    rcases hnone with hn | hn
    · rw [hn]
      cases rustParseU8 b <;> exact ⟨_, rfl⟩
    · rw [hn]
      cases rustParseU8 a <;> exact ⟨_, rfl⟩
  · intro a b mo d hsp hpa hpb hmo
    rw [hcalc, nextResetYear_eq_parsed now hsp hpa hpb]
    exact ⟨_, by unfold yearFromParts; rw [if_neg hmo]⟩
  · intro a b mo d hsp hpa hpb hmo hd
    rw [hcalc, nextResetYear_eq_parsed now hsp hpa hpb]
    exact ⟨_, by unfold yearFromParts; rw [if_pos hmo, if_neg hd]⟩
  · intro a b mo d hsp hpa hpb hmo hd hbefore
    rw [hcalc, nextResetYear_eq_parsed now hsp hpa hpb]
    unfold yearFromParts
    rw [if_pos hmo, if_pos hd, if_pos hbefore]
  · intro a b mo d hsp hpa hpb hmo hd hbefore
    constructor
    · intro hnext
      rw [hcalc, nextResetYear_eq_parsed now hsp hpa hpb]
      unfold yearFromParts
      rw [if_pos hmo, if_pos hd, if_neg hbefore, if_pos hnext]
    · intro hnext
      rw [hcalc, nextResetYear_eq_parsed now hsp hpa hpb]
      refine ⟨"Invalid date for next year", ?_⟩
      unfold yearFromParts
      rw [if_pos hmo, if_pos hd, if_neg hbefore, if_neg hnext]

/-- Witness for C7 (amended) at a concrete input: "12/31" from
2024-06-01 yields 2024-12-31T00:00:00Z. -/
theorem C7_year_mode_schedule_witness :
    calculate_next_reset_timestamp exCfgYearDec31 exNowJun1 = .ok (dateTs 2024 12 31) :=
  (C7_year_mode_schedule exCfgYearDec31 exNowJun1 (by decide)).2.2.2.2.2.1
    (strL "12") (strL "31") 12 31 (by decide) (by decide) (by decide)
    (by decide) (by decide) (by decide)

/-! ### Claim C1 -/
set_option maxRecDepth 10000 in
/-- Counterexample to C1 as stated: a stored Month-mode record carrying
`cycle_total_tx = 100`, loaded under a Week-mode configuration (an
operator-driven configuration change), comes out of State Recovery with its
totals intact — they are not zeroed. -/
theorem C1_config_change_cex :
    Except.map (fun r => r.cycle_total_tx)
      (initialize_network_state_and_offset exCfgWeekMon rawC1 exNowFeb15
        (strL "A") true 0 0) = .ok 100 ∧ (100 : Nat) ≠ 0 :=
  ⟨by decide, by decide⟩

/-- C1 (amended): when the decoded record's config differs from the current
TrafficConfig, State Recovery recomputes next_reset_at from the new config's
rule and replaces the stored config, but preserves cycle_total_tx and
cycle_total_rx from the record on disk — the totals are not zeroed (the
rollover zeroing cannot fire, because the recomputed reset instant is
strictly in the future). -/
theorem C1_config_change (cfg : NetworkConfig) (rawData : Str) (now : DateTime)
    (newBootId : Str) (isLinux : Bool) (rawTx rawRx : Nat)
    (info0 r : NetworkInfo)
    (hv : ValidDateTime now)
    (hb : buildInitialRecord cfg rawData now newBootId = .ok info0)
    (hcfg : info0.config ≠ cfg)
    (hr : initialize_network_state_and_offset cfg rawData now newBootId isLinux
            rawTx rawRx = .ok r) :
    r.cycle_total_tx = info0.cycle_total_tx ∧
    r.cycle_total_rx = info0.cycle_total_rx ∧
    r.config = cfg ∧
    calculate_next_reset_timestamp cfg now = .ok r.next_reset_timestamp :=
  initialize_config_change_helper hv hb hcfg hr

set_option maxRecDepth 10000 in
/-- Witness for C1 (amended): the concrete configuration-change scenario. -/
theorem C1_config_change_witness :
    exC1out.cycle_total_tx = exRecC1.cycle_total_tx ∧
    exC1out.cycle_total_rx = exRecC1.cycle_total_rx ∧
    exC1out.config = exCfgWeekMon ∧
    calculate_next_reset_timestamp exCfgWeekMon exNowFeb15 =
      .ok exC1out.next_reset_timestamp :=
  C1_config_change exCfgWeekMon rawC1 exNowFeb15 (strL "A") true 0 0
    exRecC1 exC1out (by decide) (by decide) (by decide) (by decide)

/-! ### Claim C2 -/
set_option maxRecDepth 10000 in
/-- Counterexample to C2 as stated: a loaded record whose `offset_rx` is the
valid (non-sentinel) value 5 while `offset_tx` carries the
generic-invalidation sentinel (its key is absent from the file).  Step 7
recomputes `offset_rx` to `cycle_total_rx - raw = -7` instead of keeping
the non-sentinel value 5 unchanged. -/
theorem C2_offset_resolution_cex :
    Except.map (fun i => i.offset_rx) (NetworkInfo.decode rawC2) = .ok 5 ∧
    Except.map (fun i => i.offset_tx) (NetworkInfo.decode rawC2) = .ok i64min ∧
    Except.map (fun i => (resolveOffsets i 7 7).offset_rx)
      (NetworkInfo.decode rawC2) = .ok (-7) ∧
    (5 : Int) ≠ -7 :=
  ⟨by decide, by decide, by decide, by decide⟩

/-- C2 (amended): step 7 of State Recovery resolves the offset pair by a case
analysis keyed on `offset_tx` alone.  Generic-invalidation sentinel: both
offsets become `cycle_total - raw_sample` (componentwise).  Reboot sentinel:
both become `cycle_total`.  Fresh-file sentinel: both become 0 when both
cycle totals are exactly 0, and `cycle_total - raw_sample` componentwise
otherwise.  A non-sentinel `offset_tx` keeps both offsets unchanged,
whatever `offset_rx` holds. -/
theorem C2_offset_resolution (info : NetworkInfo) (rawTx rawRx : Nat)
    (h1 : (info.cycle_total_tx : Int) < 2 ^ 63)
    (h2 : (info.cycle_total_rx : Int) < 2 ^ 63)
    (h3 : (rawTx : Int) < 2 ^ 63) (h4 : (rawRx : Int) < 2 ^ 63) :
    (info.offset_tx = i64min →
      resolveOffsets info rawTx rawRx = { info with
        offset_tx := (info.cycle_total_tx : Int) - (rawTx : Int),
        offset_rx := (info.cycle_total_rx : Int) - (rawRx : Int) }) ∧
    (info.offset_tx = i64min + 1 →
      resolveOffsets info rawTx rawRx = { info with
        offset_tx := (info.cycle_total_tx : Int),
        offset_rx := (info.cycle_total_rx : Int) }) ∧
    (info.offset_tx = i64min + 2 →
      info.cycle_total_tx = 0 → info.cycle_total_rx = 0 →
      resolveOffsets info rawTx rawRx =
        { info with offset_tx := 0, offset_rx := 0 }) ∧
    (info.offset_tx = i64min + 2 →
      ¬(info.cycle_total_tx = 0 ∧ info.cycle_total_rx = 0) →
      resolveOffsets info rawTx rawRx = { info with
        offset_tx := (info.cycle_total_tx : Int) - (rawTx : Int),
        offset_rx := (info.cycle_total_rx : Int) - (rawRx : Int) }) ∧
    (info.offset_tx ≠ i64min → info.offset_tx ≠ i64min + 1 →
      info.offset_tx ≠ i64min + 2 →
      resolveOffsets info rawTx rawRx = info) := by
  have hc1 : i64cast info.cycle_total_tx = (info.cycle_total_tx : Int) :=
    i64cast_eq_self h1
  have hc2 : i64cast info.cycle_total_rx = (info.cycle_total_rx : Int) :=
    i64cast_eq_self h2
  have hc3 : i64cast rawTx = (rawTx : Int) := i64cast_eq_self h3
  have hc4 : i64cast rawRx = (rawRx : Int) := i64cast_eq_self h4
  refine ⟨?_, ?_, ?_, ?_, ?_⟩
  · intro h
    unfold resolveOffsets
    rw [if_pos h, hc1, hc2, hc3, hc4,
      wrap64_eq_self (by omega) (by omega), wrap64_eq_self (by omega) (by omega)]
  · intro h
    unfold resolveOffsets
    rw [if_neg (by rw [h]; unfold i64min; omega), if_pos h, hc1, hc2]
  · intro h htx hrx
    unfold resolveOffsets
    rw [if_neg (by rw [h]; unfold i64min; omega),
      if_neg (by rw [h]; unfold i64min; omega), if_pos h, if_pos ⟨htx, hrx⟩]
  · intro h hne
    unfold resolveOffsets
    rw [if_neg (by rw [h]; unfold i64min; omega),
      if_neg (by rw [h]; unfold i64min; omega), if_pos h, if_neg hne,
      hc1, hc2, hc3, hc4,
      wrap64_eq_self (by omega) (by omega), wrap64_eq_self (by omega) (by omega)]
  · intro ha hb hc
    unfold resolveOffsets
    rw [if_neg ha, if_neg hb, if_neg hc]

/-- Witness for C2 (amended): generic-invalidation resolution at a concrete
record. -/
theorem C2_offset_resolution_witness :
    resolveOffsets
      { exRecC1 with offset_tx := i64min, offset_rx := i64min } 30 40 =
      { exRecC1 with offset_tx := 70, offset_rx := -40 } := by
  have h := (C2_offset_resolution
    { exRecC1 with offset_tx := i64min, offset_rx := i64min } 30 40
    (by decide) (by decide) (by decide) (by decide)).1 rfl
  rw [h]
  decide

/-! ### Claim C10 -/
/-- C10: the sentinel-resolution branch of State Recovery is selected solely
by `offset_tx` — `offset_rx`'s value never influences which formula applies
to `offset_tx`; and when `offset_tx` is a valid (non-sentinel) value, both
offsets are kept unchanged, so a sentinel value sitting in `offset_rx` is
published as the real rx offset. -/
theorem C10_branch_keyed_on_tx :
    (∀ (info : NetworkInfo) (v : Int) (rawTx rawRx : Nat),
      (resolveOffsets { info with offset_rx := v } rawTx rawRx).offset_tx =
        (resolveOffsets info rawTx rawRx).offset_tx) ∧
    (∀ (info : NetworkInfo) (rawTx rawRx : Nat),
      info.offset_tx ≠ i64min → info.offset_tx ≠ i64min + 1 →
      info.offset_tx ≠ i64min + 2 →
      resolveOffsets info rawTx rawRx = info) := by
  constructor
  · intro info v rawTx rawRx
    unfold resolveOffsets
    dsimp only
    split_ifs <;> rfl
  · intro info rawTx rawRx ha hb hc
    unfold resolveOffsets
    rw [if_neg ha, if_neg hb, if_neg hc]

/-- Witness for C10: a record whose `offset_tx` is the valid value 5 while
`offset_rx` holds the generic-invalidation sentinel is left unchanged. -/
theorem C10_branch_keyed_on_tx_witness :
    (resolveOffsets { exRecC9 with offset_rx := i64min } 1 2).offset_tx =
      (resolveOffsets exRecC9 1 2).offset_tx ∧
    resolveOffsets { exRecC9 with offset_rx := i64min } 3 4 =
      { exRecC9 with offset_rx := i64min } :=
  ⟨C10_branch_keyed_on_tx.1 exRecC9 i64min 1 2,
   C10_branch_keyed_on_tx.2 { exRecC9 with offset_rx := i64min } 3 4
     (by decide) (by decide) (by decide)⟩

theorem not_hasKeyL {ls : List Str} {k : Str}
    (h : ∀ l ∈ ls, lineKeyOf l ≠ some k) : ¬ hasKeyL ls k := by
  rintro ⟨l, hl, v, hkv⟩
  refine h l hl ?_
  unfold lineKeyOf
  rw [hkv]

/-! ### Claim C3 -/
/-- C3: for every syntactically valid record `r`, including every record
whose `offset_tx`/`offset_rx` hold one of the three reserved sentinel values,
`decode (encode r) = r`. -/
theorem C3_codec_roundtrip (r : NetworkInfo) (h : ValidRecord r) :
    NetworkInfo.decode (NetworkInfo.encode r) = .ok r :=
  decode_encode_roundtrip r h

/-- Witness for C3 at a concrete record carrying two reserved sentinel
offsets. -/
theorem C3_codec_roundtrip_witness :
    ValidRecord exRecC3 ∧
    NetworkInfo.decode (NetworkInfo.encode exRecC3) = .ok exRecC3 :=
  ⟨by unfold ValidRecord ValidStr; decide,
   C3_codec_roundtrip exRecC3 (by unfold ValidRecord ValidStr; decide)⟩

/-! ### Claim C4 -/
set_option maxRecDepth 10000 in
/-- Counterexample to C4 as stated: an input with every current key except
`traffic_period` and `traffic_reset_day` decodes successfully (no
MissingField error), defaulting to `Month` and `"1"`; and an input whose
`traffic_period` value is unrecognized also decodes successfully (no
InvalidValue error), silently defaulting to `Month`. -/
theorem C4_decode_errors_cex :
    NetworkInfo.decode rawC4 = .ok exRecC4 ∧
    exRecC4.config.traffic_period = .Month ∧
    exRecC4.config.traffic_reset_day = strL "1" ∧
    Except.map (fun r => r.config.traffic_period)
      (NetworkInfo.decode rawC4bogus) = .ok TrafficPeriod.Month :=
  ⟨by decide, by decide, by decide, by decide⟩

/-- C4 (amended): decode fails with a missing-field error when any of the
seven required keys (`disable_network_statistics`, `network_interval`,
`network_save_path`, `boot_id`, `cycle_total_tx`, `cycle_total_rx`,
`next_reset_timestamp`) is absent — `traffic_period` and `traffic_reset_day`
are optional, defaulting to `Month` and `"1"`, and an unrecognized
`traffic_period` value silently defaults to `Month` rather than erroring;
decode fails with an invalid-value error whenever a present value of a typed
key cannot be parsed at its expected type. -/
theorem C4_decode_errors :
    (∀ s r, NetworkInfo.decode s = .ok r →
      hasKeyL (linesOf s) kDisable ∧ hasKeyL (linesOf s) kInterval ∧
      hasKeyL (linesOf s) kPath ∧ hasKeyL (linesOf s) kBootId ∧
      hasKeyL (linesOf s) kCtx ∧ hasKeyL (linesOf s) kCrx ∧
      hasKeyL (linesOf s) kNrt) ∧
    (∀ s r, NetworkInfo.decode s = .ok r → ¬ hasKeyL (linesOf s) kPeriod →
      r.config.traffic_period = .Month) ∧
    (∀ s r, NetworkInfo.decode s = .ok r → ¬ hasKeyL (linesOf s) kResetDay →
      r.config.traffic_reset_day = strL "1") ∧
    (∀ s r, NetworkInfo.decode s = .ok r →
      (∀ l ∈ linesOf s, ∀ v, lineShape l = .kv kPeriod v →
        parsePeriodVal v = none) →
      r.config.traffic_period = .Month) ∧
    (∀ s, (∃ l ∈ linesOf s, BadValueLine l) →
      ∃ e, NetworkInfo.decode s = .error e) := by
  refine ⟨?_, ?_, ?_, ?_, ?_⟩
  · intro s r h
    obtain ⟨st, hpl, hasm⟩ := decode_ok_inv h
    obtain ⟨a1, a2, a3, a4, a5, a6, a7, _⟩ := assembleInfo_ok hasm
    refine ⟨?_, ?_, ?_, ?_, ?_, ?_, ?_⟩
    · by_contra hk
      have := processLines_preserve DecState.disable kDisable
        (fun _ _ _ _ hd hne => DStep_disable hd hne) _ _ _ hpl hk
      rw [a1] at this
      exact absurd this (by simp)
    · by_contra hk
      have := processLines_preserve DecState.interval kInterval
        (fun _ _ _ _ hd hne => DStep_interval hd hne) _ _ _ hpl hk
      rw [a2] at this
      exact absurd this (by simp)
    · by_contra hk
      have := processLines_preserve DecState.path kPath
        (fun _ _ _ _ hd hne => DStep_path hd hne) _ _ _ hpl hk
      rw [a3] at this
      exact absurd this (by simp)
    · by_contra hk
      have := processLines_preserve DecState.bootId kBootId
        (fun _ _ _ _ hd hne => DStep_bootId hd hne) _ _ _ hpl hk
      rw [a4] at this
      exact absurd this (by simp)
    · by_contra hk
      have := processLines_preserve DecState.ctx kCtx
        (fun _ _ _ _ hd hne => DStep_ctx hd hne) _ _ _ hpl hk
      rw [a5] at this
      exact absurd this (by simp)
    · by_contra hk
      have := processLines_preserve DecState.crx kCrx
        (fun _ _ _ _ hd hne => DStep_crx hd hne) _ _ _ hpl hk
      rw [a6] at this
      exact absurd this (by simp)
    · by_contra hk
      have := processLines_preserve DecState.nrt kNrt
        (fun _ _ _ _ hd hne => DStep_nrt hd hne) _ _ _ hpl hk
      rw [a7] at this
      exact absurd this (by simp)
  · intro s r h hk
    obtain ⟨st, hpl, hasm⟩ := decode_ok_inv h
    have hper := (assembleInfo_ok hasm).2.2.2.2.2.2.2.1
    have hnone : st.period = ({} : DecState).period := by
      refine processLines_preserve DecState.period kPeriod
        (fun _ _ _ _ hd hne => ?_) _ _ _ hpl hk
      rcases DStep_period hd with hp | ⟨hkk, _⟩
      · exact hp
      · exact absurd hkk hne
    rw [hnone] at hper
    exact hper.symm
  · intro s r h hk
    obtain ⟨st, hpl, hasm⟩ := decode_ok_inv h
    have hday := (assembleInfo_ok hasm).2.2.2.2.2.2.2.2.1
    have hnone : st.resetDay = ({} : DecState).resetDay := by
      exact processLines_preserve DecState.resetDay kResetDay
        (fun _ _ _ _ hd hne => DStep_resetDay hd hne) _ _ _ hpl hk
    rw [hnone] at hday
    exact hday.symm
  · intro s r h hall
    obtain ⟨st, hpl, hasm⟩ := decode_ok_inv h
    have hper := (assembleInfo_ok hasm).2.2.2.2.2.2.2.1
    rcases processLines_period _ _ _ hpl with hsame | ⟨l, hl, v, hkv, hres⟩
    · rw [hsame] at hper
      exact hper.symm
    · rw [hres, hall l hl v hkv] at hper
      exact hper.symm
  · intro s hbad
    obtain ⟨e, he⟩ := processLines_error_of_bad (linesOf s) {} hbad
    refine ⟨e, ?_⟩
    unfold NetworkInfo.decode
    rw [he]

/-- Witness for C4 (amended): a present `network_interval` value that does
not parse as `u32` makes decode fail. -/
theorem C4_decode_errors_witness :
    ∃ e, NetworkInfo.decode (strL "network_interval=abc\n") = .error e :=
  C4_decode_errors.2.2.2.2 (strL "network_interval=abc\n")
    ⟨strL "network_interval=abc", by decide,
     kInterval, strL "abc", by decide, Or.inr (Or.inl ⟨rfl, by decide⟩)⟩

/-! ### Claim C8 -/
/-- C8: `decode` treats `offset_tx` and `offset_rx` as optional, defaulting
each to the generic-invalidation sentinel when its key is absent; and when
the persisted text is non-empty but fails to decode, the rebuilt record
seeds `cycle_total_tx`/`cycle_total_rx` from the legacy
`source_tx`/`source_rx` keys exactly when both parse (via
`parse_old_format_for_migration`, zero otherwise), with fresh-file sentinel
offsets and a freshly computed `next_reset_timestamp`. -/
theorem C8_backward_compat :
    (∀ s r, NetworkInfo.decode s = .ok r →
      (¬ hasKeyL (linesOf s) kOtx → r.offset_tx = i64min) ∧
      (¬ hasKeyL (linesOf s) kOrx → r.offset_rx = i64min)) ∧
    (∀ cfg raw now bootId rec, raw ≠ [] →
      (∃ e, NetworkInfo.decode raw = .error e) →
      buildInitialRecord cfg raw now bootId = .ok rec →
      rec.cycle_total_tx = ((parse_old_format_for_migration raw).getD (0, 0)).1 ∧
      rec.cycle_total_rx = ((parse_old_format_for_migration raw).getD (0, 0)).2 ∧
      rec.offset_tx = i64min + 2 ∧ rec.offset_rx = i64min + 2 ∧
      rec.config = cfg ∧ rec.boot_id = bootId ∧
      calculate_next_reset_timestamp cfg now = .ok rec.next_reset_timestamp) := by
  constructor
  · intro s r h
    obtain ⟨st, hpl, hasm⟩ := decode_ok_inv h
    have ho := (assembleInfo_ok hasm).2.2.2.2.2.2.2.2.2
    constructor
    · intro hk
      have hp := processLines_preserve DecState.otx kOtx
        (fun _ _ _ _ hd hne => DStep_otx hd hne) _ _ _ hpl hk
      rw [ho.1] at hp
      exact hp.trans rfl
    · intro hk
      have hp := processLines_preserve DecState.orx kOrx
        (fun _ _ _ _ hd hne => DStep_orx hd hne) _ _ _ hpl hk
      rw [ho.2] at hp
      exact hp.trans rfl
  · intro cfg raw now bootId rec hne hdec hb
    exact buildInitialRecord_migration hne hdec hb

set_option maxRecDepth 10000 in
/-- Witness for C8 at two concrete inputs: a file with no offset keys
decodes to sentinel offsets, and the legacy file `source_tx=11, source_rx=22`
is migrated into the rebuilt record's totals. -/
theorem C8_backward_compat_witness :
    exRecC4.offset_tx = i64min ∧ exRecC4.offset_rx = i64min ∧
    exRecC8.cycle_total_tx = 11 ∧ exRecC8.cycle_total_rx = 22 ∧
    exRecC8.offset_tx = i64min + 2 ∧ exRecC8.offset_rx = i64min + 2 ∧
    calculate_next_reset_timestamp exCfgMonth31 exNowFeb15 =
      .ok exRecC8.next_reset_timestamp := by
  have hA := C8_backward_compat.1 rawC4 exRecC4 (by decide)
  have hB := C8_backward_compat.2 exCfgMonth31 rawC8 exNowFeb15 (strL "B")
    exRecC8 (by decide)
    ⟨"Missing field: disable_network_statistics", by decide⟩ (by decide)
  exact ⟨hA.1 (not_hasKeyL (by decide)), hA.2 (not_hasKeyL (by decide)),
    hB.1.trans (by decide), hB.2.1.trans (by decide), hB.2.2.1, hB.2.2.2.1,
    hB.2.2.2.2.2.2⟩

/-! ### Claim C9 -/
/-- C9: in every sample-loop iteration, if the current time is at or past
`next_reset_timestamp` the loop exits without persisting (the head sample at
or past the reset instant yields no write events at all); otherwise the
iteration persists a record whose totals are `(raw_sample + offset).max 0`
and whose schedule is unchanged — so every write event carries a timestamp
strictly before the cycle's reset instant. -/
theorem C9_sample_loop_exit (offTx offRx : Int)
    (samples : List (Int × Nat × Nat)) (info : NetworkInfo)
    (hbnd : ∀ s ∈ samples, ((s.2.1 : Int) < 2 ^ 63 ∧ (s.2.2 : Int) < 2 ^ 63 ∧
      -(2 ^ 63) ≤ (s.2.1 : Int) + offTx ∧ (s.2.1 : Int) + offTx < 2 ^ 63 ∧
      -(2 ^ 63) ≤ (s.2.2 : Int) + offRx ∧ (s.2.2 : Int) + offRx < 2 ^ 63)) :
    (∀ e ∈ sampleLoop offTx offRx info samples,
        e.1 < info.next_reset_timestamp ∧
        e.2.2.2.cycle_total_tx = (max ((e.2.1 : Int) + offTx) 0).toNat ∧
        e.2.2.2.cycle_total_rx = (max ((e.2.2.1 : Int) + offRx) 0).toNat ∧
        e.2.2.2.next_reset_timestamp = info.next_reset_timestamp) ∧
    (∀ now rtx rrx rest, samples = (now, rtx, rrx) :: rest →
        info.next_reset_timestamp ≤ now →
        sampleLoop offTx offRx info samples = []) :=
  sampleLoop_spec offTx offRx samples info hbnd

/-- Witness for C9: a sample taken exactly at the reset instant produces no
write event. -/
theorem C9_sample_loop_exit_witness :
    sampleLoop 5 (-3) exRecC9 [(1000, 1, 2)] = [] :=
  (C9_sample_loop_exit 5 (-3) [(1000, 1, 2)] exRecC9 (by decide)).2
    1000 1 2 [] rfl (by decide)

end Komari
